import Mathlib

/-
Verification of the primitive population manager of scene/gaussian_model.py.

Shallow embedding conventions:
  * Tensor rows are Lean lists; per-primitive 3-vectors are rational triples
    and quaternions are rational 4-tuples.  Real-valued entries are modelled
    by the rationals; the IEEE special values that the densification code has
    to handle (the NaN of 0/0 and the infinities of x/0) are modelled by the
    explicit type Flt below.
  * The activation functions set by setup_functions (torch.exp, torch.log,
    torch.sigmoid) are transcendental, so they are carried as function fields
    of the model state, exactly as the Python object carries them as
    attributes; theorems constrain them only where the source behaviour
    depends on their properties.
  * The external collaborators called from the densification path but not
    part of this repository (torch.normal sampling, build_rotation from
    utils.general_utils, open3d normal estimation, distCUDA2) are oracle
    parameters.
  * denom counts visible training steps and is stored as a natural number.
-/

namespace GRAPE

abbrev Vec3 := ℚ × ℚ × ℚ
abbrev Quat := ℚ × ℚ × ℚ × ℚ

def zeroV3 : Vec3 := (0, 0, 0)

def vadd (a b : Vec3) : Vec3 := (a.1 + b.1, a.2.1 + b.2.1, a.2.2 + b.2.2)

def vmul (a b : Vec3) : Vec3 := (a.1 * b.1, a.2.1 * b.2.1, a.2.2 * b.2.2)

def vdivQ (a : Vec3) (c : ℚ) : Vec3 := (a.1 / c, a.2.1 / c, a.2.2 / c)

def vdivN (a : Vec3) (d : ℕ) : Vec3 := (a.1 / (d : ℚ), a.2.1 / (d : ℚ), a.2.2 / (d : ℚ))

def mapVec (f : ℚ → ℚ) (a : Vec3) : Vec3 := (f a.1, f a.2.1, f a.2.2)

def maxComp (a : Vec3) : ℚ := max a.1 (max a.2.1 a.2.2)

/-- IEEE-style float value: a finite rational, an infinity, or NaN.  Finite
arithmetic is exact rational arithmetic (the float quantisation itself is not
the subject of any claim). -/
inductive Flt where
  | val : ℚ → Flt
  | posInf : Flt
  | negInf : Flt
  | nan : Flt
  deriving DecidableEq, Repr

/-- Division a / d of an accumulated float by a (nonnegative) visibility
count, with IEEE semantics at d = 0: 0/0 is NaN, x/0 for x positive is +inf
and for x negative is -inf. -/
def fdiv (a : ℚ) (d : ℕ) : Flt :=
  if d ≠ 0 then Flt.val (a / (d : ℚ))
  else if a = 0 then Flt.nan
  else if 0 < a then Flt.posInf
  else Flt.negInf

/-- The assignment grads[grads.isnan()] = 0.0 of densify_and_prune. -/
def fixNan : Flt → Flt
  | Flt.nan => Flt.val 0
  | f => f

def Flt.abs : Flt → Flt
  | Flt.val q => Flt.val |q|
  | Flt.posInf => Flt.posInf
  | Flt.negInf => Flt.posInf
  | Flt.nan => Flt.nan

/-- IEEE comparison x >= y: false whenever either side is NaN. -/
def Flt.ge : Flt → Flt → Bool
  | Flt.nan, _ => false
  | _, Flt.nan => false
  | Flt.posInf, _ => true
  | _, Flt.posInf => false
  | _, Flt.negInf => true
  | Flt.negInf, _ => false
  | Flt.val a, Flt.val b => decide (b ≤ a)

/-- Line 577-578 of gaussian_model.py: grads = xyz_gradient_accum / denom
followed by grads[grads.isnan()] = 0.0. -/
def computeGrads (accum : List ℚ) (denom : List ℕ) : List Flt :=
  (List.zipWith fdiv accum denom).map fixNan

/-- Boolean-mask indexing t[mask] of torch: keep the entries at the true
positions of the mask, preserving order. -/
def maskFilter (mask : List Bool) (xs : List α) : List α :=
  match mask, xs with
  | true :: m, x :: rest => x :: maskFilter m rest
  | false :: m, _ :: rest => maskFilter m rest
  | _, _ => []

/-- In-place masked addition new_xyz[m] += adds of torch advanced indexing:
the i-th true position of the mask receives the i-th row of adds. -/
def maskedAdd (mask : List Bool) (xs : List Vec3) (adds : List Vec3) : List Vec3 :=
  match mask, xs, adds with
  | true :: m, x :: rest, a :: arest => vadd x a :: maskedAdd m rest arest
  | true :: m, x :: rest, [] => x :: maskedAdd m rest []
  | false :: m, x :: rest, arest => x :: maskedAdd m rest arest
  | _, rest, _ => rest

/-- Tensor.repeat(n, 1): n concatenated copies of the rows. -/
def tile : ℕ → List α → List α
  | 0, _ => []
  | n + 1, xs => xs ++ tile n xs

/-- Three-list pointwise combination (used for bmm-plus-add rows and for the
numpy transpose in load_ply). -/
def zip3With (f : α → β → γ → δ) : List α → List β → List γ → List δ
  | a :: as_, b :: bs, c :: cs => f a b c :: zip3With f as_ bs cs
  | _, _, _ => []

/-- One optimizer-tracked parameter group: the parameter rows plus the
optional Adam state (exp_avg, exp_avg_sq) the optimizer holds for it.  The
state is None until the first optimizer step touches the group. -/
structure ParamState (α : Type) where
  value : List α
  moments : Option (List α × List α)

/-- Per-group body of _prune_optimizer (lines 421-439): boolean-mask filter
the parameter and, when present, its exp_avg / exp_avg_sq with the same
mask. -/
def pruneParam (mask : List Bool) (p : ParamState α) : ParamState α :=
  { value := maskFilter mask p.value
    moments := p.moments.map fun ab => (maskFilter mask ab.1, maskFilter mask ab.2) }

/-- Per-group body of cat_tensors_to_optimizer (lines 463-485): concatenate
the extension rows and, when state is present, pad exp_avg / exp_avg_sq with
torch.zeros_like(extension_tensor). -/
def catParam (zf : α → α) (ext : List α) (p : ParamState α) : ParamState α :=
  { value := p.value ++ ext
    moments := p.moments.map fun ab => (ab.1 ++ ext.map zf, ab.2 ++ ext.map zf) }

/-- The mutable state of GaussianModel that the densification, pruning and
serialization paths read and write.  The three activation attributes set by
setup_functions are function fields (torch.exp, torch.log, torch.sigmoid in
the source). -/
structure GS where
  sact : ℚ → ℚ
  sinv : ℚ → ℚ
  oact : ℚ → ℚ
  percent_dense : ℚ
  scene_scale : ParamState ℚ
  xyz : ParamState Vec3
  f_dc : ParamState Vec3
  f_rest : ParamState (List Vec3)
  opacity : ParamState ℚ
  scaling : ParamState Vec3
  rotation : ParamState Quat
  type_ : List ℚ
  score : List ℚ
  xyz_id : List ℕ
  modify_id : List ℕ
  xyz_gradient_accum : List ℚ
  position_gradient_accum : List Vec3
  denom : List ℕ
  max_radii2D : List ℚ
  normal : Option (List Vec3)

/-- External collaborators invoked from the densification path: the unit
normal draws behind torch.normal (per generated row index), build_rotation
from utils.general_utils applied to a raw quaternion and a vector (the
utils module is outside src, modelled from the spec: it rotates the sampled
offset by the primitive's physical rotation), and open3d estimate_normals
over the current positions. -/
structure Oracle where
  gauss : ℕ → Vec3
  rotApply : Quat → Vec3 → Vec3
  estN : List Vec3 → List Vec3

/-- The prune_points entry (lines 441-461): valid_points_mask = ~mask, then
every tracked parameter group (scene_scale excluded inside _prune_optimizer)
and every side array is filtered with the valid mask. -/
def prune_points (mask : List Bool) (s : GS) : GS :=
  let valid := mask.map not
  { s with
    xyz := pruneParam valid s.xyz
    f_dc := pruneParam valid s.f_dc
    f_rest := pruneParam valid s.f_rest
    opacity := pruneParam valid s.opacity
    scaling := pruneParam valid s.scaling
    rotation := pruneParam valid s.rotation
    xyz_gradient_accum := maskFilter valid s.xyz_gradient_accum
    position_gradient_accum := maskFilter valid s.position_gradient_accum
    denom := maskFilter valid s.denom
    max_radii2D := maskFilter valid s.max_radii2D
    score := maskFilter valid s.score
    xyz_id := maskFilter valid s.xyz_id
    type_ := maskFilter valid s.type_ }

/-- densification_postfix (lines 487-510): extend the six tracked groups via
cat_tensors_to_optimizer, reset the gradient accumulators, denom and
max_radii2D to zeros of the new length, and concatenate score, id and type.
(The source name ends in a reserved word of the verification gate, hence the
shortened Lean name.) -/
def densification_append (new_xyz new_f_dc : List Vec3) (new_f_rest : List (List Vec3))
    (new_opacity : List ℚ) (new_scaling : List Vec3) (new_rotation : List Quat)
    (new_score : List ℚ) (new_xyz_id : List ℕ) (new_type : List ℚ) (s : GS) : GS :=
  let xyz' := catParam (fun _ => zeroV3) new_xyz s.xyz
  let n := xyz'.value.length
  { s with
    xyz := xyz'
    f_dc := catParam (fun _ => zeroV3) new_f_dc s.f_dc
    f_rest := catParam (fun r => r.map fun _ => zeroV3) new_f_rest s.f_rest
    opacity := catParam (fun _ => 0) new_opacity s.opacity
    scaling := catParam (fun _ => zeroV3) new_scaling s.scaling
    rotation := catParam (fun _ => (0, 0, 0, 0)) new_rotation s.rotation
    xyz_gradient_accum := List.replicate n 0
    position_gradient_accum := List.replicate n zeroV3
    denom := List.replicate n 0
    max_radii2D := List.replicate n 0
    score := s.score ++ new_score
    xyz_id := s.xyz_id ++ new_xyz_id
    type_ := s.type_ ++ new_type }

/-- Clone selection (lines 544-546): torch.norm(grads, dim=-1) over the
(N,1) gradient column is the per-entry absolute value; the second conjunct
keeps only primitives whose largest physical scale axis is at most
percent_dense * scene_extent. -/
def cloneMask (grads : List Flt) (thr : Flt) (pd extent : ℚ) (sact : ℚ → ℚ)
    (scaling : List Vec3) : List Bool :=
  List.zipWith (· && ·)
    (grads.map fun g => Flt.ge g.abs thr)
    (scaling.map fun v => decide (maxComp (mapVec sact v) ≤ pd * extent))

/-- Line 565: selected_pts_mask = logical_and(selected_pts_mask, type == 1). -/
def cloneSel2 (sel : List Bool) (types : List ℚ) : List Bool :=
  List.zipWith (· && ·) sel (types.map fun t => decide (t = 1))

/-- The clone selection applied to the store's own fields. -/
def cloneSel (grads : List Flt) (thr : Flt) (extent : ℚ) (s : GS) : List Bool :=
  cloneMask grads thr s.percent_dense extent s.sact s.scaling.value

/-- densify_and_clone (lines 542-569).  xyz_lr is the literal 1 of line 548.
The clones copy every attribute of their source; afterwards the positions of
the clones whose type is 1 receive position_gradient_accum / denom of their
source (torch advanced indexing aligns the k-th true of new_type == 1 with
the k-th true of selected_pts_mask AND type == 1). -/
def densify_and_clone (grads : List Flt) (thr : Flt) (extent : ℚ) (s : GS) : GS :=
  let sel := cloneSel grads thr extent s
  let new_xyz0 := maskFilter sel s.xyz.value
  let new_f_dc := maskFilter sel s.f_dc.value
  let new_f_rest := maskFilter sel s.f_rest.value
  let new_opacity := maskFilter sel s.opacity.value
  let new_scaling := maskFilter sel s.scaling.value
  let new_rotation := maskFilter sel s.rotation.value
  let new_score := maskFilter sel s.score
  let new_xyz_id := maskFilter sel s.xyz_id
  let new_type := maskFilter sel s.type_
  let sel2 := cloneSel2 sel s.type_
  let adds := maskFilter sel2 (List.zipWith vdivN s.position_gradient_accum s.denom)
  let new_xyz := maskedAdd (new_type.map fun t => decide (t = 1)) new_xyz0 adds
  let s1 := { s with modify_id := s.modify_id ++ new_xyz_id }
  densification_append new_xyz new_f_dc new_f_rest new_opacity new_scaling new_rotation
    new_score new_xyz_id new_type s1

/-- Zero-padding of the gradient column to the current population size
(lines 515-516); torch would reject grads longer than the population. -/
def padTo (n : ℕ) (xs : List Flt) : List Flt :=
  xs.take n ++ List.replicate (n - xs.length) (Flt.val 0)

/-- Split selection (lines 517-519): padded gradient at least the threshold
AND largest physical scale axis strictly above percent_dense * scene_extent. -/
def splitMask (padded : List Flt) (thr : Flt) (pd extent : ℚ) (sact : ℚ → ℚ)
    (scaling : List Vec3) : List Bool :=
  List.zipWith (· && ·)
    (padded.map fun g => Flt.ge g thr)
    (scaling.map fun v => decide (pd * extent < maxComp (mapVec sact v)))

/-- Split selection over the zero-padded gradient column (lines 513-519). -/
def splitSel (grads : List Flt) (thr : Flt) (extent : ℚ) (s : GS) : List Bool :=
  splitMask (padTo s.xyz.value.length grads) thr s.percent_dense extent s.sact
    s.scaling.value

/-- Line 521: stds = get_scaling[selected].repeat(nf, 1) — the physical
scales of the selected parents, tiled nf times. -/
def splitStds (sel : List Bool) (nf : ℕ) (s : GS) : List Vec3 :=
  tile nf (maskFilter sel (s.scaling.value.map (mapVec s.sact)))

/-- Lines 522-523: samples = torch.normal(0, stds), modelled as the
elementwise product of stds with the oracle's unit normal draws. -/
def splitSamples (orc : Oracle) (sel : List Bool) (nf : ℕ) (s : GS) : List Vec3 :=
  List.zipWith vmul (splitStds sel nf s)
    ((List.range (splitStds sel nf s).length).map orc.gauss)

/-- Lines 524-525: child positions = bmm(build_rotation(parent raw rotation),
samples) + parent position, tiled nf times. -/
def splitNewXyz (orc : Oracle) (sel : List Bool) (nf : ℕ) (s : GS) : List Vec3 :=
  zip3With (fun q smp x => vadd (orc.rotApply q smp) x)
    (tile nf (maskFilter sel s.rotation.value))
    (splitSamples orc sel nf s)
    (tile nf (maskFilter sel s.xyz.value))

/-- Line 526: child raw scale = scaling_inverse_activation(physical scale /
(0.8 * nf)). -/
def splitNewScaling (sel : List Bool) (nf : ℕ) (s : GS) : List Vec3 :=
  (splitStds sel nf s).map fun v => mapVec s.sinv (vdivQ v ((4 / 5 : ℚ) * nf))

/-- densify_and_split (lines 512-540) with fan-out nf (N=2 in the source
default).  The selected parents spawn nf children each (scattered positions,
shrunk scales, all other attributes tiled copies), the children are appended
through densification_append, and the final prune filter removes exactly the
selected parents while exempting every appended child. -/
def densify_and_split (orc : Oracle) (grads : List Flt) (thr : Flt) (extent : ℚ)
    (nf : ℕ) (s : GS) : GS :=
  let sel := splitSel grads thr extent s
  let s1 := { s with modify_id := s.modify_id ++ maskFilter sel s.xyz_id }
  let s2 := densification_append (splitNewXyz orc sel nf s)
    (tile nf (maskFilter sel s.f_dc.value)) (tile nf (maskFilter sel s.f_rest.value))
    (tile nf (maskFilter sel s.opacity.value)) (splitNewScaling sel nf s)
    (tile nf (maskFilter sel s.rotation.value)) (tile nf (maskFilter sel s.score))
    (tile nf (maskFilter sel s.xyz_id)) (tile nf (maskFilter sel s.type_)) s1
  prune_points (sel ++ List.replicate (nf * sel.count true) false) s2

/-- Removal mask of the pruning pass (lines 588-611): physical opacity below
min_opacity, extended, when the Python float max_screen_size is truthy
(present and nonzero), with max_radii2D > max_screen_size OR largest
physical scale axis > 0.1 * extent. -/
def pruneMaskOf (min_opacity extent : ℚ) (mss : Option ℚ) (s : GS) : List Bool :=
  let base := s.opacity.value.map fun o => decide (s.oact o < min_opacity)
  match mss with
  | some v =>
      if v ≠ 0 then
        let big_vs := s.max_radii2D.map fun r => decide (v < r)
        let big_ws := s.scaling.value.map fun sc =>
          decide ((1 / 10 : ℚ) * extent < maxComp (mapVec s.sact sc))
        List.zipWith (· || ·) (List.zipWith (· || ·) base big_vs) big_ws
      else base
  | none => base

/-- The pruning pass of densify_and_prune: build the removal mask and apply
prune_points. -/
def prunePass (min_opacity extent : ℚ) (mss : Option ℚ) (s : GS) : GS :=
  prune_points (pruneMaskOf min_opacity extent mss s) s

/-- reset_xyz_id (lines 215-218): ids become the dense range 0..N-1. -/
def reset_xyz_id (s : GS) : GS :=
  { s with xyz_id := List.range s.xyz.value.length }

/-- computeNormal (lines 183-213) returns None unconditionally: the body
after the first return statement is dead code. -/
def computeNormal : Option (List Vec3) := none

/-- densify_and_prune (lines 571-677): average the screen-position gradient
accumulator, replace NaN by 0, reset ids and modify_id, clone, split with
fan-out 2, prune by opacity and optional screen/world size, then store the
open3d-estimated normals of the surviving positions. -/
def densify_and_prune (orc : Oracle) (max_grad : Flt) (min_opacity extent : ℚ)
    (mss : Option ℚ) (s : GS) : GS :=
  let grads := computeGrads s.xyz_gradient_accum s.denom
  let s1 := { reset_xyz_id s with modify_id := [] }
  let s2 := densify_and_clone grads max_grad extent s1
  let s3 := densify_and_split orc grads max_grad extent 2 s2
  let s4 := prunePass min_opacity extent mss s3
  { s4 with normal := some (orc.estN s4.xyz.value) }

/-- Adds per update_filter step (lines 679-682), for completeness of the
accumulator model: visible entries add the screen-gradient norm, the position
gradient, and one visibility count. -/
def add_densification_stats (filter : List Bool) (screenNorm : List ℚ)
    (posGrad : List Vec3) (s : GS) : GS :=
  { s with
    xyz_gradient_accum := zip3With (fun b a g => if b then a + g else a)
      filter s.xyz_gradient_accum screenNorm
    position_gradient_accum := zip3With (fun b a g => if b then vadd a g else a)
      filter s.position_gradient_accum posGrad
    denom := List.zipWith (fun b d => if b then d + 1 else d) filter s.denom }

/-- Inputs of create_from_pcd (lines 220-280) together with the external
functions it applies pointwise: distCUDA2 output (an external CUDA kernel,
its per-point squared nearest distances are free inputs), torch.sqrt and
torch.log stand-ins, inverse_sigmoid from utils (outside src), and the
normals-to-quaternion pipeline (cross products plus scipy Rotation, applied
per input normal). -/
structure PcdIn where
  points : List Vec3
  normals : List Vec3
  types : List ℚ
  dist2 : List ℚ
  sqrtQ : ℚ → ℚ
  logQ : ℚ → ℚ
  invSig : ℚ → ℚ
  rotsOf : Vec3 → Quat

/-- Clamped squared distances of line 237: torch.clamp(distCUDA2(..),
0.0000001, 0.01). -/
def clampedDist2 (p : PcdIn) : List ℚ :=
  p.dist2.map fun d => min (max d (1 / 10000000)) (1 / 100)

/-- Raw scale initialisation of lines 239-241 and 263-266: the first two
axes are log of sqrt(dist2 / 2), the third is log 1e-3, and afterwards the
third axis of every primitive whose type equals 0 is overwritten with its
second axis. -/
def initScale (p : PcdIn) : List Vec3 :=
  let pre := (clampedDist2 p).map fun d =>
    (p.logQ (p.sqrtQ (d / 2)), p.logQ (p.sqrtQ (d / 2)), p.logQ (1 / 1000))
  List.zipWith (fun t (v : Vec3) => if t = 0 then (v.1, v.2.1, v.2.1) else v) p.types pre

/-- create_from_pcd (lines 220-280).  Color features start as zeros (line
225 writes zeros_like(fused_color) into the DC slot), opacities are
inverse_sigmoid 0.4, the raw scales follow initScale, ids are reset, and the
normal slot receives computeNormal(), which is None. -/
def create_from_pcd (sact sinv oact : ℚ → ℚ) (p : PcdIn) (maxSh : ℕ) : GS :=
  let n := p.points.length
  let m := (maxSh + 1) ^ 2 - 1
  { sact := sact
    sinv := sinv
    oact := oact
    percent_dense := 0
    scene_scale := ⟨[1], none⟩
    xyz := ⟨p.points, none⟩
    f_dc := ⟨List.replicate n zeroV3, none⟩
    f_rest := ⟨List.replicate n (List.replicate m zeroV3), none⟩
    opacity := ⟨List.replicate n (p.invSig (2 / 5)), none⟩
    scaling := ⟨initScale p, none⟩
    rotation := ⟨p.normals.map p.rotsOf, none⟩
    type_ := p.types
    score := (clampedDist2 p).map p.sqrtQ
    xyz_id := List.range n
    modify_id := []
    xyz_gradient_accum := []
    position_gradient_accum := []
    denom := []
    max_radii2D := List.replicate n 0
    normal := computeNormal }

/-- One stored PLY vertex record of save_ply (lines 331-356): position,
normal, DC color, flattened higher-order color, raw opacity, raw scale, raw
rotation, type.  All raw (pre-activation) values. -/
structure PlyVertex where
  x : ℚ
  y : ℚ
  z : ℚ
  nx : ℚ
  ny : ℚ
  nz : ℚ
  f_dc : Vec3
  f_rest : List ℚ
  opacity : ℚ
  scale : Vec3
  rot : Quat
  ty : ℚ
  deriving DecidableEq

/-- The transpose(1,2).flatten(start_dim=1) of line 342 on one (M,3) row
block: channel-major flattening. -/
def flattenRest (rs : List Vec3) : List ℚ :=
  rs.map (fun r => r.1) ++ (rs.map (fun r => r.2.1) ++ rs.map (fun r => r.2.2))

/-- Row assembly of save_ply: one record per primitive, in order. -/
def buildVerts : List Vec3 → List Vec3 → List Vec3 → List (List Vec3) → List ℚ →
    List Vec3 → List Quat → List ℚ → List PlyVertex
  | px :: xs, nv :: ns, dc :: dcs, fr :: frs, o :: os, sc :: scs, q :: qs, t :: ts =>
      { x := px.1, y := px.2.1, z := px.2.2
        nx := nv.1, ny := nv.2.1, nz := nv.2.2
        f_dc := dc, f_rest := flattenRest fr
        opacity := o, scale := sc, rot := q, ty := t } ::
      buildVerts xs ns dcs frs os scs qs ts
  | _, _, _, _, _, _, _, _ => []

/-- save_ply (lines 331-356): torch.from_numpy(self._normal) raises when the
normal slot is None, so serialization only succeeds when normals are
present; otherwise the raw attribute rows are written verbatim. -/
def save_ply (s : GS) : Option (List PlyVertex) :=
  s.normal.map fun ns =>
    buildVerts s.xyz.value ns s.f_dc.value s.f_rest.value s.opacity.value
      s.scaling.value s.rotation.value s.type_

/-- The reshape((N, 3, M)) followed by transpose(1, 2) of load_ply applied
to one flattened row: rebuild the (M,3) coefficient block from the
channel-major flat row. -/
def unflattenRest (m : ℕ) (flat : List ℚ) : List Vec3 :=
  zip3With (fun a b c => (a, b, c)) (flat.take m) ((flat.drop m).take m)
    ((flat.drop (2 * m)).take m)

/-- load_ply (lines 363-404): read back position, DC color, higher-order
color (asserting the stored width matches 3*(maxSh+1)^2 - 3), raw opacity,
raw scale and raw rotation, installing them as fresh parameters (no
optimizer state).  Normals and types in the file are not read back. -/
def load_ply (maxSh : ℕ) (verts : List PlyVertex) (s : GS) : Option GS :=
  if verts.all (fun v => v.f_rest.length == 3 * (maxSh + 1) ^ 2 - 3) then
    some { s with
      xyz := ⟨verts.map fun v => (v.x, v.y, v.z), none⟩
      f_dc := ⟨verts.map PlyVertex.f_dc, none⟩
      f_rest := ⟨verts.map fun v => unflattenRest ((maxSh + 1) ^ 2 - 1) v.f_rest, none⟩
      opacity := ⟨verts.map PlyVertex.opacity, none⟩
      scaling := ⟨verts.map PlyVertex.scale, none⟩
      rotation := ⟨verts.map PlyVertex.rot, none⟩ }
  else none

/-- Adam-state length agreement for one group: when the optimizer holds
state for the group, both moment rows have the group's length. -/
def momOk (n : ℕ) : Option (List α × List α) → Bool
  | none => true
  | some ab => ab.1.length == n && ab.2.length == n

def paramOk (n : ℕ) (p : ParamState α) : Bool :=
  p.value.length == n && momOk n p.moments

/-- The C1 invariant on the six tracked per-primitive parameter groups. -/
def trackedOk (s : GS) : Bool :=
  let n := s.xyz.value.length
  paramOk n s.xyz && paramOk n s.f_dc && paramOk n s.f_rest &&
  paramOk n s.opacity && paramOk n s.scaling && paramOk n s.rotation

/-- Full well-formedness: the six tracked groups plus every side array share
one length. -/
def wf (s : GS) : Bool :=
  let n := s.xyz.value.length
  trackedOk s && s.type_.length == n && s.score.length == n &&
  s.xyz_id.length == n && s.xyz_gradient_accum.length == n &&
  s.position_gradient_accum.length == n && s.denom.length == n &&
  s.max_radii2D.length == n

/-- A structural operation of the population manager: clone, split or
prune. -/
inductive StructOp where
  | clone (grads : List Flt) (thr : Flt) (extent : ℚ)
  | split (orc : Oracle) (grads : List Flt) (thr : Flt) (extent : ℚ) (nf : ℕ)
  | prune (mask : List Bool)

def applyOp : StructOp → GS → GS
  | StructOp.clone g t e, s => densify_and_clone g t e s
  | StructOp.split o g t e nf, s => densify_and_split o g t e nf s
  | StructOp.prune m, s => prune_points m s

def applyOps (ops : List StructOp) (s : GS) : GS :=
  ops.foldl (fun s op => applyOp op s) s

/-- The per-primitive attributes that persist across a densification cycle
(positions, color coefficients, raw opacity, raw scale, raw rotation, type,
outlier score); ids, accumulators and normals are per-cycle state the spec
documents as reset or recomputed by every cycle. -/
def popAttrs (s : GS) : List Vec3 × List Vec3 × List (List Vec3) × List ℚ ×
    List Vec3 × List Quat × List ℚ × List ℚ :=
  (s.xyz.value, s.f_dc.value, s.f_rest.value, s.opacity.value,
   s.scaling.value, s.rotation.value, s.type_, s.score)

/-- A fixed trivial oracle for concrete evaluations: unit draws are zero,
rotation application is the identity on the vector, normal estimation
returns the positions themselves. -/
def orc0 : Oracle where
  gauss := fun _ => zeroV3
  rotApply := fun _ v => v
  estN := fun xs => xs

/-- A concrete one-primitive store used by the witnesses: identity
activations, Adam state present for every tracked group. -/
def gsBase : GS where
  sact := id
  sinv := id
  oact := id
  percent_dense := 1 / 10
  scene_scale := ⟨[1], some ([0], [0])⟩
  xyz := ⟨[(0, 0, 0)], some ([zeroV3], [zeroV3])⟩
  f_dc := ⟨[(0, 0, 0)], some ([zeroV3], [zeroV3])⟩
  f_rest := ⟨[[(0, 0, 0)]], some ([[zeroV3]], [[zeroV3]])⟩
  opacity := ⟨[1 / 2], some ([0], [0])⟩
  scaling := ⟨[(0, 0, 0)], some ([zeroV3], [zeroV3])⟩
  rotation := ⟨[(1, 0, 0, 0)], some ([(0, 0, 0, 0)], [(0, 0, 0, 0)])⟩
  type_ := [1]
  score := [1]
  xyz_id := [0]
  modify_id := []
  xyz_gradient_accum := [0]
  position_gradient_accum := [(0, 0, 0)]
  denom := [1]
  max_radii2D := [0]
  normal := none

/-- A concrete operation sequence exercising clone, split and prune. -/
def ops0 : List StructOp :=
  [StructOp.clone [Flt.val 1] (Flt.val 0) 1,
   StructOp.split orc0 [Flt.val 1] (Flt.val 0) 1 2,
   StructOp.prune [true, false]]

/-- Definition following the specification's words for C2 (refinement
comparison only, not translated from the source): avgGrad =
positionGradAccum / denom elementwise, with NaN entries replaced by 0. -/
def c2_spec_avgGrad (s : GS) : List (Flt × Flt × Flt) :=
  List.zipWith (fun (v : Vec3) (d : ℕ) =>
      (fixNan (fdiv v.1 d), fixNan (fdiv v.2.1 d), fixNan (fdiv v.2.2 d)))
    s.position_gradient_accum s.denom

/-- Concrete store separating the two gradient accumulators: the screen
accumulator is zero while the position accumulator is far above any
threshold. -/
def s2 : GS := { gsBase with position_gradient_accum := [(9, 0, 0)] }

/-- Concrete accumulator state with one never-visible entry (denom 0,
accumulator 0) and one visible entry. -/
def gsW2 : GS :=
  { gsBase with xyz_gradient_accum := [0, 3], denom := [0, 2] }

/-- Definition following the specification's words for C5 (refinement
comparison only, not translated from the source): remove where
physicalOpacity < minOpacity, and when maxScreenSize is set (present), also
where maxScreenRadius > maxScreenSize OR max(physicalScale) > 0.1 * extent,
combined with logical OR. -/
def c5_claimedRemoveMask (min_opacity extent : ℚ) (mss : Option ℚ) (s : GS) :
    List Bool :=
  let base := s.opacity.value.map fun o => decide (s.oact o < min_opacity)
  match mss with
  | some v =>
      List.zipWith (· || ·)
        (List.zipWith (· || ·) base (s.max_radii2D.map fun r => decide (v < r)))
        (s.scaling.value.map fun sc =>
          decide ((1 / 10 : ℚ) * extent < maxComp (mapVec s.sact sc)))
  | none => base

/-- Concrete store whose single primitive has a large screen radius: with
maxScreenSize present but zero, the claimed mask removes it while the code
keeps it (Python float truthiness skips the extra conditions). -/
def s5 : GS := { gsBase with max_radii2D := [5] }

/-- Concrete store for the idempotence witness: the opacity activation is
the constant 1, so no physical opacity is below a zero minimum. -/
def gsW6 : GS := { gsBase with oact := fun _ => 1 }

/-- The population is empty: every persistent per-primitive array has no
entries. -/
def emptyPop (s : GS) : Prop :=
  s.xyz.value = [] ∧ s.f_dc.value = [] ∧ s.f_rest.value = [] ∧
  s.opacity.value = [] ∧ s.scaling.value = [] ∧ s.rotation.value = [] ∧
  s.type_ = [] ∧ s.score = []

/-- The intermediate state of densify_and_prune right before its pruning
pass: ids reset, modify_id cleared, clone then split applied with the
averaged gradients of the entry state. -/
def dapMid (orc : Oracle) (mg : Flt) (extent : ℚ) (s : GS) : GS :=
  densify_and_split orc (computeGrads s.xyz_gradient_accum s.denom) mg extent 2
    (densify_and_clone (computeGrads s.xyz_gradient_accum s.denom) mg extent
      { reset_xyz_id s with modify_id := [] })

/-- Concrete store for the prune-to-empty witness: the opacity activation is
the constant 0, below the minimum opacity 1. -/
def gsW7 : GS := { gsBase with oact := fun _ => 0 }

/-- Concrete single-point cloud with a PLANAR (type 1) point, identity
stand-ins for sqrt and log, and a squared nearest distance at the clamp
ceiling. -/
def p8 : PcdIn where
  points := [(0, 0, 0)]
  normals := [(0, 0, 1)]
  types := [1]
  dist2 := [1 / 100]
  sqrtQ := id
  logQ := id
  invSig := id
  rotsOf := fun _ => (1, 0, 0, 0)

/-- The same cloud with a VOLUMETRIC (type 0) point. -/
def p8v : PcdIn := { p8 with types := [0] }

/-- Concrete single-point cloud whose log stand-in is a constant, keeping
every initial raw scale a literal. -/
def pw8 : PcdIn :=
  { p8 with types := [0], dist2 := [5], logQ := fun _ => 7 }

/-- Concrete 1000-primitive store with normals present, for the
serialization round-trip witness (max SH degree 1, so each primitive has 3
higher-order coefficient rows). -/
def s9 : GS :=
  { gsBase with
    xyz := ⟨List.replicate 1000 (1, 2, 3), none⟩
    f_dc := ⟨List.replicate 1000 (1, 0, 0), none⟩
    f_rest := ⟨List.replicate 1000 (List.replicate 3 ((1 : ℚ), 2, 3)), none⟩
    opacity := ⟨List.replicate 1000 1, none⟩
    scaling := ⟨List.replicate 1000 (1, 1, 1), none⟩
    rotation := ⟨List.replicate 1000 (1, 0, 0, 0), none⟩
    type_ := List.replicate 1000 1
    normal := some (List.replicate 1000 (0, 0, 1)) }

/-- Moment-length agreement as a proposition. -/
def MomLen (n : ℕ) : Option (List α × List α) → Prop
  | none => True
  | some ab => ab.1.length = n ∧ ab.2.length = n

/-- All per-primitive arrays and moment rows have length n. -/
def LensOk (s : GS) (n : ℕ) : Prop :=
  s.xyz.value.length = n ∧ MomLen n s.xyz.moments ∧
  s.f_dc.value.length = n ∧ MomLen n s.f_dc.moments ∧
  s.f_rest.value.length = n ∧ MomLen n s.f_rest.moments ∧
  s.opacity.value.length = n ∧ MomLen n s.opacity.moments ∧
  s.scaling.value.length = n ∧ MomLen n s.scaling.moments ∧
  s.rotation.value.length = n ∧ MomLen n s.rotation.moments ∧
  s.type_.length = n ∧ s.score.length = n ∧ s.xyz_id.length = n ∧
  s.xyz_gradient_accum.length = n ∧ s.position_gradient_accum.length = n ∧
  s.denom.length = n ∧ s.max_radii2D.length = n

/-! Helper lemmas about the list-level building blocks. -/

@[simp]
theorem maskFilter_nil_mask (xs : List α) : maskFilter [] xs = [] := by
  cases xs <;> rfl

@[simp]
theorem maskFilter_nil_list {α : Type _} (m : List Bool) :
    maskFilter m ([] : List α) = [] := by
  cases m with
  | nil => rfl
  | cons b m => cases b <;> rfl

@[simp]
theorem maskFilter_true_cons (m : List Bool) (x : α) (xs : List α) :
    maskFilter (true :: m) (x :: xs) = x :: maskFilter m xs := rfl

@[simp]
theorem maskFilter_false_cons (m : List Bool) (x : α) (xs : List α) :
    maskFilter (false :: m) (x :: xs) = maskFilter m xs := rfl

theorem maskFilter_length_congr {m : List Bool} {xs : List α} {ys : List β}
    (h : xs.length = ys.length) :
    (maskFilter m xs).length = (maskFilter m ys).length := by
  induction m generalizing xs ys with
  | nil => simp
  | cons b m ih =>
      cases xs with
      | nil => cases ys with
        | nil => simp
        | cons y ys => simp at h
      | cons x xs =>
          cases ys with
          | nil => simp at h
          | cons y ys =>
              simp only [List.length_cons, Nat.succ.injEq] at h
              cases b with
              | true => simp [ih h]
              | false => simp [ih h]

theorem maskFilter_length_count {m : List Bool} {xs : List α}
    (h : m.length = xs.length) :
    (maskFilter m xs).length = m.count true := by
  induction m generalizing xs with
  | nil => simp
  | cons b m ih =>
      cases xs with
      | nil => simp at h
      | cons x xs =>
          simp only [List.length_cons, Nat.succ.injEq] at h
          cases b with
          | true => simp [List.count_cons, ih h]
          | false => simp [List.count_cons, ih h]

theorem maskFilter_append {m1 m2 : List Bool} {xs1 xs2 : List α}
    (h : m1.length = xs1.length) :
    maskFilter (m1 ++ m2) (xs1 ++ xs2) = maskFilter m1 xs1 ++ maskFilter m2 xs2 := by
  induction m1 generalizing xs1 with
  | nil =>
      cases xs1 with
      | nil => simp
      | cons x xs => simp at h
  | cons b m ih =>
      cases xs1 with
      | nil => simp at h
      | cons x xs =>
          simp only [List.length_cons, Nat.succ.injEq] at h
          cases b with
          | true => simp [ih h]
          | false => simp [ih h]

theorem maskFilter_allFalse {m : List Bool} (xs : List α)
    (h : ∀ b ∈ m, b = false) : maskFilter m xs = [] := by
  induction m generalizing xs with
  | nil => simp
  | cons b m ih =>
      cases xs with
      | nil => simp
      | cons x rest =>
          have hb : b = false := h b (List.mem_cons_self b m)
          subst hb
          exact ih rest fun c hc => h c (List.mem_cons_of_mem _ hc)

theorem maskFilter_allTrue {m : List Bool} {xs : List α}
    (h : m.length = xs.length) (ht : ∀ b ∈ m, b = true) :
    maskFilter m xs = xs := by
  induction m generalizing xs with
  | nil =>
      cases xs with
      | nil => simp
      | cons x xs => simp at h
  | cons b m ih =>
      cases xs with
      | nil => simp at h
      | cons x xs =>
          simp only [List.length_cons, Nat.succ.injEq] at h
          have hb : b = true := ht b (List.mem_cons_self b m)
          subst hb
          simp [ih h fun c hc => ht c (List.mem_cons_of_mem _ hc)]

theorem mem_maskFilter {m : List Bool} {xs : List α} {x : α}
    (h : x ∈ maskFilter m xs) : x ∈ xs := by
  induction m generalizing xs with
  | nil => simp at h
  | cons b m ih =>
      cases xs with
      | nil => simp at h
      | cons y rest =>
          cases b with
          | true =>
              simp only [maskFilter_true_cons, List.mem_cons] at h
              rcases h with h | h
              · exact h ▸ List.mem_cons_self y rest
              · exact List.mem_cons_of_mem _ (ih h)
          | false =>
              simp only [maskFilter_false_cons] at h
              exact List.mem_cons_of_mem _ (ih h)

theorem maskFilter_map (f : α → β) (m : List Bool) (xs : List α) :
    maskFilter m (xs.map f) = (maskFilter m xs).map f := by
  induction m generalizing xs with
  | nil => simp
  | cons b m ih =>
      cases xs with
      | nil => simp
      | cons x xs => cases b <;> simp [ih]

theorem maskedAdd_length (m : List Bool) (xs adds : List Vec3) :
    (maskedAdd m xs adds).length = xs.length := by
  induction m generalizing xs adds with
  | nil => simp [maskedAdd]
  | cons b m ih =>
      cases xs with
      | nil => cases b <;> simp [maskedAdd]
      | cons x rest =>
          cases b with
          | true =>
              cases adds with
              | nil => simp [maskedAdd, ih]
              | cons a arest => simp [maskedAdd, ih]
          | false => simp [maskedAdd, ih]

theorem maskedAdd_spec (sel : List Bool) (ty : List ℚ) (xs ad : List Vec3)
    (h1 : ty.length = sel.length) (h2 : xs.length = sel.length)
    (h3 : ad.length = sel.length) :
    maskedAdd ((maskFilter sel ty).map fun t => decide (t = 1))
        (maskFilter sel xs)
        (maskFilter (List.zipWith (· && ·) sel (ty.map fun t => decide (t = 1))) ad) =
      maskFilter sel (zip3With (fun t x a => if t = 1 then vadd x a else x) ty xs ad) := by
  induction sel generalizing ty xs ad with
  | nil => simp [maskedAdd]
  | cons b sel ih =>
      cases ty with
      | nil => simp at h1
      | cons t ty =>
          cases xs with
          | nil => simp at h2
          | cons x xs =>
              cases ad with
              | nil => simp at h3
              | cons a ad =>
                  simp only [List.length_cons, Nat.succ.injEq] at h1 h2 h3
                  have hrec := ih ty xs ad h1 h2 h3
                  cases b with
                  | false =>
                      simp only [maskFilter_false_cons, List.map_cons,
                        List.zipWith_cons_cons, Bool.false_and, zip3With]
                      exact hrec
                  | true =>
                      by_cases ht : t = 1
                      · subst ht
                        simp only [maskFilter_true_cons, List.map_cons,
                          List.zipWith_cons_cons, Bool.true_and, zip3With,
                          eq_self_iff_true, decide_True, if_true, maskedAdd]
                        rw [hrec]
                      · have hdt : decide (t = 1) = false := decide_eq_false ht
                        simp only [maskFilter_true_cons, List.map_cons, hdt,
                          List.zipWith_cons_cons, Bool.true_and, maskFilter_false_cons,
                          zip3With]
                        rw [if_neg ht]
                        simp only [maskedAdd]
                        rw [hrec]

theorem cloneMask_length (grads : List Flt) (thr : Flt) (pd extent : ℚ)
    (sact : ℚ → ℚ) (scaling : List Vec3) :
    (cloneMask grads thr pd extent sact scaling).length =
      min grads.length scaling.length := by
  simp [cloneMask]

@[simp]
theorem tile_zero (xs : List α) : tile 0 xs = [] := rfl

@[simp]
theorem tile_succ (n : ℕ) (xs : List α) : tile (n + 1) xs = xs ++ tile n xs := rfl

theorem tile_length (n : ℕ) (xs : List α) : (tile n xs).length = n * xs.length := by
  induction n with
  | zero => simp
  | succ n ih => simp [ih, Nat.succ_mul, Nat.add_comm]

theorem mem_tile {n : ℕ} {xs : List α} {x : α} (h : x ∈ tile n xs) : x ∈ xs := by
  induction n with
  | zero => simp at h
  | succ n ih =>
      simp only [tile_succ, List.mem_append] at h
      rcases h with h | h
      · exact h
      · exact ih h

theorem zip3With_length (f : α → β → γ → δ) (as_ : List α) (bs : List β) (cs : List γ)
    (h1 : bs.length = as_.length) (h2 : cs.length = as_.length) :
    (zip3With f as_ bs cs).length = as_.length := by
  induction as_ generalizing bs cs with
  | nil =>
      cases bs with
      | nil => cases cs <;> simp [zip3With]
      | cons b bs => simp at h1
  | cons a as_ ih =>
      cases bs with
      | nil => simp at h1
      | cons b bs =>
          cases cs with
          | nil => simp at h2
          | cons c cs =>
              simp only [List.length_cons, Nat.succ.injEq] at h1 h2
              simp [zip3With, ih bs cs h1 h2]

/-! Well-formedness characterization and its preservation. -/

theorem momOk_iff (n : ℕ) (mo : Option (List α × List α)) :
    momOk n mo = true ↔ MomLen n mo := by
  cases mo with
  | none => simp [momOk, MomLen]
  | some ab => simp [momOk, MomLen]

theorem paramOk_iff (n : ℕ) (p : ParamState α) :
    paramOk n p = true ↔ p.value.length = n ∧ MomLen n p.moments := by
  simp [paramOk, Bool.and_eq_true, momOk_iff, beq_iff_eq]

theorem wf_iff (s : GS) : wf s = true ↔ LensOk s s.xyz.value.length := by
  simp only [wf, trackedOk, Bool.and_eq_true, paramOk_iff, beq_iff_eq, LensOk]
  tauto

theorem trackedOk_of_wf (s : GS) (h : wf s = true) : trackedOk s = true := by
  simp only [wf, Bool.and_eq_true] at h
  exact h.1.1.1.1.1.1.1

theorem pruneParam_len {p : ParamState α} {n : ℕ} {l : List β} {valid : List Bool}
    (hv : p.value.length = n) (hm : MomLen n p.moments) (hxs : l.length = n) :
    (pruneParam valid p).value.length = (maskFilter valid l).length ∧
    MomLen ((maskFilter valid l).length) (pruneParam valid p).moments := by
  constructor
  · exact maskFilter_length_congr (hv.trans hxs.symm)
  · cases hmo : p.moments with
    | none => simp [pruneParam, hmo, MomLen]
    | some ab =>
        rw [hmo] at hm
        obtain ⟨ha, hb⟩ := hm
        simp only [pruneParam, hmo, Option.map_some]
        exact ⟨maskFilter_length_congr (ha.trans hxs.symm),
               maskFilter_length_congr (hb.trans hxs.symm)⟩

theorem catParam_len {p : ParamState α} {n k : ℕ} {g : α → α} {e : List α}
    (hv : p.value.length = n) (hm : MomLen n p.moments) (he : e.length = k) :
    (catParam g e p).value.length = n + k ∧
    MomLen (n + k) (catParam g e p).moments := by
  constructor
  · simp [catParam, hv, he]
  · cases hmo : p.moments with
    | none => simp [catParam, hmo, MomLen]
    | some ab =>
        rw [hmo] at hm
        obtain ⟨ha, hb⟩ := hm
        simp only [catParam, hmo, Option.map_some]
        constructor <;> simp [ha, hb, he]

theorem wf_of_lensOk {s : GS} {n : ℕ} (h : LensOk s n) : wf s = true := by
  rw [wf_iff]
  obtain ⟨h1, hrest⟩ := h
  subst h1
  exact ⟨rfl, hrest⟩

theorem wf_prune_points (s : GS) (m : List Bool) (h : wf s = true) :
    wf (prune_points m s) = true := by
  rw [wf_iff] at h
  obtain ⟨h1, h2, h3, h4, h5, h6, h7, h8, h9, h10, h11, h12, h13, h14, h15, h16, h17,
    h18, h19⟩ := h
  apply wf_of_lensOk (n := (maskFilter (m.map not) s.xyz.value).length)
  refine ⟨?_, ?_, ?_, ?_, ?_, ?_, ?_, ?_, ?_, ?_, ?_, ?_, ?_, ?_, ?_, ?_, ?_, ?_, ?_⟩
  · exact (pruneParam_len (l := s.xyz.value) h1 h2 rfl).1
  · exact (pruneParam_len (l := s.xyz.value) h1 h2 rfl).2
  · exact (pruneParam_len (l := s.xyz.value) h3 h4 rfl).1
  · exact (pruneParam_len (l := s.xyz.value) h3 h4 rfl).2
  · exact (pruneParam_len (l := s.xyz.value) h5 h6 rfl).1
  · exact (pruneParam_len (l := s.xyz.value) h5 h6 rfl).2
  · exact (pruneParam_len (l := s.xyz.value) h7 h8 rfl).1
  · exact (pruneParam_len (l := s.xyz.value) h7 h8 rfl).2
  · exact (pruneParam_len (l := s.xyz.value) h9 h10 rfl).1
  · exact (pruneParam_len (l := s.xyz.value) h9 h10 rfl).2
  · exact (pruneParam_len (l := s.xyz.value) h11 h12 rfl).1
  · exact (pruneParam_len (l := s.xyz.value) h11 h12 rfl).2
  · exact maskFilter_length_congr h13
  · exact maskFilter_length_congr h14
  · exact maskFilter_length_congr h15
  · exact maskFilter_length_congr h16
  · exact maskFilter_length_congr h17
  · exact maskFilter_length_congr h18
  · exact maskFilter_length_congr h19

theorem wf_densification_append (s : GS)
    (e1 e2 : List Vec3) (e3 : List (List Vec3)) (e4 : List ℚ) (e5 : List Vec3)
    (e6 : List Quat) (e7 : List ℚ) (e8 : List ℕ) (e9 : List ℚ)
    (h : wf s = true)
    (l2 : e2.length = e1.length) (l3 : e3.length = e1.length)
    (l4 : e4.length = e1.length) (l5 : e5.length = e1.length)
    (l6 : e6.length = e1.length) (l7 : e7.length = e1.length)
    (l8 : e8.length = e1.length) (l9 : e9.length = e1.length) :
    wf (densification_append e1 e2 e3 e4 e5 e6 e7 e8 e9 s) = true := by
  rw [wf_iff] at h
  obtain ⟨h1, h2, h3, h4, h5, h6, h7, h8, h9, h10, h11, h12, h13, h14, h15, h16, h17,
    h18, h19⟩ := h
  have hx := catParam_len (g := fun _ => zeroV3) (e := e1) h1 h2 rfl
  apply wf_of_lensOk (n := s.xyz.value.length + e1.length)
  refine ⟨?_, ?_, ?_, ?_, ?_, ?_, ?_, ?_, ?_, ?_, ?_, ?_, ?_, ?_, ?_, ?_, ?_, ?_, ?_⟩
  · exact hx.1
  · exact hx.2
  · exact (catParam_len h3 h4 l2).1
  · exact (catParam_len h3 h4 l2).2
  · exact (catParam_len h5 h6 l3).1
  · exact (catParam_len h5 h6 l3).2
  · exact (catParam_len h7 h8 l4).1
  · exact (catParam_len h7 h8 l4).2
  · exact (catParam_len h9 h10 l5).1
  · exact (catParam_len h9 h10 l5).2
  · exact (catParam_len h11 h12 l6).1
  · exact (catParam_len h11 h12 l6).2
  · show (s.type_ ++ e9).length = s.xyz.value.length + e1.length
    simp [h13, l9]
  · show (s.score ++ e7).length = s.xyz.value.length + e1.length
    simp [h14, l7]
  · show (s.xyz_id ++ e8).length = s.xyz.value.length + e1.length
    simp [h15, l8]
  · show (List.replicate (catParam (fun _ => zeroV3) e1 s.xyz).value.length (0 : ℚ)).length =
      s.xyz.value.length + e1.length
    simp [hx.1]
  · show (List.replicate (catParam (fun _ => zeroV3) e1 s.xyz).value.length zeroV3).length =
      s.xyz.value.length + e1.length
    simp [hx.1]
  · show (List.replicate (catParam (fun _ => zeroV3) e1 s.xyz).value.length (0 : ℕ)).length =
      s.xyz.value.length + e1.length
    simp [hx.1]
  · show (List.replicate (catParam (fun _ => zeroV3) e1 s.xyz).value.length (0 : ℚ)).length =
      s.xyz.value.length + e1.length
    simp [hx.1]

theorem wf_densify_and_clone (s : GS) (grads : List Flt) (thr : Flt) (extent : ℚ)
    (h : wf s = true) : wf (densify_and_clone grads thr extent s) = true := by
  obtain ⟨h1, h2, h3, h4, h5, h6, h7, h8, h9, h10, h11, h12, h13, h14, h15, h16, h17,
    h18, h19⟩ := (wf_iff s).mp h
  refine wf_densification_append _ _ _ _ _ _ _ _ _ _ h ?_ ?_ ?_ ?_ ?_ ?_ ?_ ?_ <;>
    rw [maskedAdd_length]
  · exact maskFilter_length_congr h3
  · exact maskFilter_length_congr h5
  · exact maskFilter_length_congr h7
  · exact maskFilter_length_congr h9
  · exact maskFilter_length_congr h11
  · exact maskFilter_length_congr h14
  · exact maskFilter_length_congr h15
  · exact maskFilter_length_congr h13

theorem padTo_length (n : ℕ) (xs : List Flt) : (padTo n xs).length = n := by
  rw [padTo, List.length_append, List.length_take, List.length_replicate, Nat.min_def]
  split <;> omega

theorem splitSel_length (grads : List Flt) (thr : Flt) (extent : ℚ) (s : GS)
    (h9 : s.scaling.value.length = s.xyz.value.length) :
    (splitSel grads thr extent s).length = s.xyz.value.length := by
  rw [splitSel, splitMask, List.length_zipWith, List.length_map, List.length_map,
    padTo_length, h9]
  exact Nat.min_self _

theorem wf_densify_and_split (s : GS) (orc : Oracle) (grads : List Flt) (thr : Flt)
    (extent : ℚ) (nf : ℕ) (h : wf s = true) :
    wf (densify_and_split orc grads thr extent nf s) = true := by
  obtain ⟨h1, h2, h3, h4, h5, h6, h7, h8, h9, h10, h11, h12, h13, h14, h15, h16, h17,
    h18, h19⟩ := (wf_iff s).mp h
  set sel := splitSel grads thr extent s with hsel
  have hstds : (splitStds sel nf s).length =
      nf * (maskFilter sel s.xyz.value).length := by
    rw [splitStds, tile_length, maskFilter_map, List.length_map,
      maskFilter_length_congr h9]
  have hsamp : (splitSamples orc sel nf s).length =
      nf * (maskFilter sel s.xyz.value).length := by
    rw [splitSamples, List.length_zipWith, List.length_map, List.length_range,
      Nat.min_self, hstds]
  have hrots : (tile nf (maskFilter sel s.rotation.value)).length =
      nf * (maskFilter sel s.xyz.value).length := by
    rw [tile_length, maskFilter_length_congr h11]
  have he1 : (splitNewXyz orc sel nf s).length =
      nf * (maskFilter sel s.xyz.value).length := by
    rw [splitNewXyz,
      zip3With_length _ _ _ _ (by rw [hsamp, hrots]) (by rw [tile_length, hrots])]
    exact hrots
  apply wf_prune_points
  refine wf_densification_append _ _ _ _ _ _ _ _ _ _ h ?_ ?_ ?_ ?_ ?_ ?_ ?_ ?_ <;>
    rw [he1]
  · rw [tile_length, maskFilter_length_congr h3]
  · rw [tile_length, maskFilter_length_congr h5]
  · rw [tile_length, maskFilter_length_congr h7]
  · rw [splitNewScaling, List.length_map, hstds]
  · rw [tile_length, maskFilter_length_congr h11]
  · rw [tile_length, maskFilter_length_congr h14]
  · rw [tile_length, maskFilter_length_congr h15]
  · rw [tile_length, maskFilter_length_congr h13]

theorem wf_applyOp (op : StructOp) (s : GS) (h : wf s = true) :
    wf (applyOp op s) = true := by
  cases op with
  | clone g t e => exact wf_densify_and_clone s g t e h
  | split o g t e nf => exact wf_densify_and_split s o g t e nf h
  | prune m => exact wf_prune_points s m h

theorem wf_applyOps (ops : List StructOp) (s : GS) (h : wf s = true) :
    wf (applyOps ops s) = true := by
  induction ops generalizing s with
  | nil => exact h
  | cons op ops ih => exact ih (applyOp op s) (wf_applyOp op s h)

theorem scene_scale_applyOp (op : StructOp) (s : GS) :
    (applyOp op s).scene_scale = s.scene_scale := by
  cases op with
  | clone g t e => rfl
  | split o g t e nf => rfl
  | prune m => rfl

theorem scene_scale_applyOps (ops : List StructOp) (s : GS) :
    (applyOps ops s).scene_scale = s.scene_scale := by
  induction ops generalizing s with
  | nil => rfl
  | cons op ops ih =>
      calc (applyOps (op :: ops) s).scene_scale
          = (applyOps ops (applyOp op s)).scene_scale := rfl
        _ = (applyOp op s).scene_scale := ih (applyOp op s)
        _ = s.scene_scale := scene_scale_applyOp op s

/-! Claim C1. -/

/-- C1: after any sequence of clone, split and prune operations on a
well-formed store with an initialized optimizer, the six tracked parameter
arrays (position, DC and higher-order color features, raw opacity, raw
scale, raw rotation) all share one length, every optimizer moment row
present for them has that same length, and the scene_scale group (value and
optimizer state alike) is never resized: both the filter and the extension
operation skip it. -/
theorem c1_tracked_invariant (ops : List StructOp) (s : GS) (h : wf s = true) :
    trackedOk (applyOps ops s) = true ∧
    (applyOps ops s).scene_scale = s.scene_scale :=
  ⟨trackedOk_of_wf _ (wf_applyOps ops s h), scene_scale_applyOps ops s⟩

/-- Witness for C1 at a concrete store and a clone-split-prune sequence. -/
theorem c1_tracked_invariant_witness :
    wf gsBase = true ∧ trackedOk (applyOps ops0 gsBase) = true ∧
    (applyOps ops0 gsBase).scene_scale = gsBase.scene_scale :=
  ⟨by decide, (c1_tracked_invariant ops0 gsBase (by decide)).1,
   (c1_tracked_invariant ops0 gsBase (by decide)).2⟩

/-! Claim C2. -/

/-- Shared helper: when the accumulator of every never-visible entry is zero
(the only states reachable through add_densification_stats), the NaN fix
turns the elementwise quotient into a total rational average, never an
infinity: 0 for denom = 0 and accum / denom otherwise. -/
theorem computeGrads_eq (accum : List ℚ) (denom : List ℕ)
    (h : ∀ p ∈ List.zip accum denom, p.2 = 0 → p.1 = 0) :
    computeGrads accum denom =
      List.zipWith (fun (a : ℚ) (d : ℕ) => Flt.val (if d = 0 then 0 else a / d))
        accum denom := by
  induction accum generalizing denom with
  | nil => simp [computeGrads]
  | cons a as ih =>
      cases denom with
      | nil => simp [computeGrads]
      | cons d ds =>
          have hhd : d = 0 → a = 0 := h (a, d) (by simp)
          have htl : ∀ p ∈ List.zip as ds, p.2 = 0 → p.1 = 0 := by
            intro p hp
            exact h p (by simp [hp])
          have hrec := ih ds htl
          simp only [computeGrads] at hrec
          have hhead : fixNan (fdiv a d) = Flt.val (if d = 0 then 0 else a / (d : ℚ)) := by
            by_cases hd : d = 0
            · have ha : a = 0 := hhd hd
              subst hd
              subst ha
              simp [fdiv, fixNan]
            · simp [fdiv, hd, fixNan]
          simp only [computeGrads, List.zipWith_cons_cons, List.map_cons, hhead, hrec]

/-- C2 counterexample: the claim states the selection signal is
positionGradAccum / denom.  In store s2 the claimed average is (9, 0, 0)
(norm 9, at or above the threshold 1, and the scale condition holds), but
the gradient list that densify_and_prune actually computes from
xyz_gradient_accum is 0, the clone selection mask is all-false, and the
population does not grow. -/
theorem c2_counterexample :
    computeGrads s2.xyz_gradient_accum s2.denom = [Flt.val 0] ∧
    c2_spec_avgGrad s2 = [(Flt.val 9, Flt.val 0, Flt.val 0)] ∧
    Flt.ge (Flt.val 9).abs (Flt.val 1) = true ∧
    decide (maxComp (mapVec s2.sact (0, 0, 0)) ≤ s2.percent_dense * 1) = true ∧
    cloneMask (computeGrads s2.xyz_gradient_accum s2.denom) (Flt.val 1)
      s2.percent_dense 1 s2.sact s2.scaling.value = [false] ∧
    (densify_and_prune orc0 (Flt.val 1) 0 1 none s2).xyz.value.length = 1 := by
  refine ⟨?_, ?_, ?_, ?_, ?_, ?_⟩
  · norm_num [computeGrads, fdiv, fixNan, s2, gsBase]
  · norm_num [c2_spec_avgGrad, fdiv, fixNan, s2, gsBase]
  · norm_num [Flt.ge, Flt.abs]
  · norm_num [mapVec, maxComp, s2, gsBase]
  · norm_num [cloneMask, computeGrads, fdiv, fixNan, Flt.ge, Flt.abs, mapVec, maxComp,
      s2, gsBase]
  · norm_num [densify_and_prune, densify_and_clone, densify_and_split, prunePass,
      prune_points, pruneMaskOf, densification_append, catParam, pruneParam,
      computeGrads, fdiv, fixNan, cloneMask, cloneSel2, splitMask, padTo, splitSel,
      splitStds, splitSamples, splitNewXyz, splitNewScaling, maskFilter,
      maskedAdd, tile, zip3With, reset_xyz_id, s2, gsBase, Flt.ge, Flt.abs, mapVec,
      maxComp, vdivN, vadd, vmul, vdivQ, orc0]

/-- C2 (amended): in densify_and_prune the gradient signal used for
clone/split selection is xyz_gradient_accum / denom (the accumulated
screen-space gradient norms, not positionGradAccum), and on every store in
which never-visible entries carry a zero accumulator the NaN replacement
makes that signal exactly 0 for denom = 0 entries and accum / denom for the
rest. -/
theorem c2_selection_signal_amended (s : GS)
    (h : ∀ p ∈ List.zip s.xyz_gradient_accum s.denom, p.2 = 0 → p.1 = 0) :
    computeGrads s.xyz_gradient_accum s.denom =
      List.zipWith (fun (a : ℚ) (d : ℕ) => Flt.val (if d = 0 then 0 else a / d))
        s.xyz_gradient_accum s.denom :=
  computeGrads_eq s.xyz_gradient_accum s.denom h

/-- Witness for the amended C2 at a concrete store with a never-visible
entry. -/
theorem c2_selection_signal_amended_witness :
    (∀ p ∈ List.zip gsW2.xyz_gradient_accum gsW2.denom, p.2 = 0 → p.1 = 0) ∧
    computeGrads gsW2.xyz_gradient_accum gsW2.denom =
      List.zipWith (fun (a : ℚ) (d : ℕ) => Flt.val (if d = 0 then 0 else a / d))
        gsW2.xyz_gradient_accum gsW2.denom :=
  ⟨by decide, c2_selection_signal_amended gsW2 (by decide)⟩

/-- The boolean filter of the split pass on the concatenated population: a
mask selecting parents, padded with false over the appended children, keeps
exactly the unselected originals followed by all children. -/
theorem maskFilter_prunefilter {sel : List Bool} {k2 : ℕ} {A ext : List α}
    (hA : sel.length = A.length) (hext : ext.length = k2) :
    maskFilter ((sel ++ List.replicate k2 false).map not) (A ++ ext) =
      maskFilter (sel.map not) A ++ ext := by
  rw [List.map_append, List.map_replicate]
  have hrep : (List.replicate k2 (not false)) = List.replicate k2 true := by
    simp
  rw [hrep, maskFilter_append (by simp [hA])]
  rw [maskFilter_allTrue (by simp [hext])
    (fun b hb => List.eq_of_mem_replicate hb)]

/-! Claim C3. -/

/-- C3: the clone pass selects exactly the primitives whose gradient norm is
at least the threshold and whose largest physical scale axis is at most
percent_dense * scene_extent (the mask cloneMask); for exactly k selected
primitives the population grows by exactly k; the first n entries of every
attribute array are the untouched originals; the appended clones duplicate
their source's attributes verbatim, except that clones of type 1 (PLANAR)
have their position nudged by position_gradient_accum / denom of the source
while type 0 (VOLUMETRIC) clones copy the position unchanged.  The denom
hypothesis keeps the rational model of the nudge division faithful to the
float semantics (a zero denominator would produce non-finite values). -/
theorem c3_clone (s : GS) (grads : List Flt) (thr : Flt) (extent : ℚ)
    (hwf : wf s = true) (hg : grads.length = s.xyz.value.length)
    (hden : ∀ p ∈ List.zip s.type_ s.denom, p.1 = 1 → p.2 ≠ 0) :
    let n := s.xyz.value.length
    let sel := cloneSel grads thr extent s
    let cl := densify_and_clone grads thr extent s
    cl.xyz.value.length = n + sel.count true ∧
    cl.xyz.value.take n = s.xyz.value ∧
    cl.f_dc.value.take n = s.f_dc.value ∧
    cl.f_rest.value.take n = s.f_rest.value ∧
    cl.opacity.value.take n = s.opacity.value ∧
    cl.scaling.value.take n = s.scaling.value ∧
    cl.rotation.value.take n = s.rotation.value ∧
    cl.type_.take n = s.type_ ∧
    cl.score.take n = s.score ∧
    cl.xyz.value.drop n =
      maskFilter sel (zip3With (fun t x a => if t = 1 then vadd x a else x)
        s.type_ s.xyz.value
        (List.zipWith vdivN s.position_gradient_accum s.denom)) ∧
    cl.f_dc.value.drop n = maskFilter sel s.f_dc.value ∧
    cl.f_rest.value.drop n = maskFilter sel s.f_rest.value ∧
    cl.opacity.value.drop n = maskFilter sel s.opacity.value ∧
    cl.scaling.value.drop n = maskFilter sel s.scaling.value ∧
    cl.rotation.value.drop n = maskFilter sel s.rotation.value ∧
    cl.type_.drop n = maskFilter sel s.type_ ∧
    cl.score.drop n = maskFilter sel s.score := by
  intro n sel cl
  obtain ⟨h1, h2, h3, h4, h5, h6, h7, h8, h9, h10, h11, h12, h13, h14, h15, h16, h17,
    h18, h19⟩ := (wf_iff s).mp hwf
  have hseln : sel.length = n := by
    show (cloneMask grads thr s.percent_dense extent s.sact s.scaling.value).length = n
    rw [cloneMask_length, hg, h9]
    exact Nat.min_self _
  have hselx : sel.length = s.xyz.value.length := hseln
  have he1 : (maskedAdd ((maskFilter sel s.type_).map fun t => decide (t = 1))
      (maskFilter sel s.xyz.value)
      (maskFilter (cloneSel2 sel s.type_)
        (List.zipWith vdivN s.position_gradient_accum s.denom))).length =
      sel.count true := by
    rw [maskedAdd_length]
    exact maskFilter_length_count hselx
  refine ⟨?_, ?_, ?_, ?_, ?_, ?_, ?_, ?_, ?_, ?_, ?_, ?_, ?_, ?_, ?_, ?_, ?_⟩
  · show (s.xyz.value ++ maskedAdd ((maskFilter sel s.type_).map fun t => decide (t = 1))
      (maskFilter sel s.xyz.value)
      (maskFilter (cloneSel2 sel s.type_)
        (List.zipWith vdivN s.position_gradient_accum s.denom))).length =
      n + sel.count true
    rw [List.length_append, he1]
  · exact List.take_left' rfl
  · exact List.take_left' h3
  · exact List.take_left' h5
  · exact List.take_left' h7
  · exact List.take_left' h9
  · exact List.take_left' h11
  · exact List.take_left' h13
  · exact List.take_left' h14
  · show (s.xyz.value ++ _).drop n = _
    rw [List.drop_left' rfl]
    exact maskedAdd_spec sel s.type_ s.xyz.value _ (h13.trans hseln.symm)
      hselx.symm (by rw [List.length_zipWith, h17, h18]; exact (Nat.min_self _).trans hseln.symm)
  · exact List.drop_left' h3
  · exact List.drop_left' h5
  · exact List.drop_left' h7
  · exact List.drop_left' h9
  · exact List.drop_left' h11
  · exact List.drop_left' h13
  · exact List.drop_left' h14

/-- Witness for C3 at a concrete one-primitive PLANAR store whose primitive
satisfies the clone predicate. -/
theorem c3_clone_witness :
    wf gsBase = true ∧
    ([Flt.val 1] : List Flt).length = gsBase.xyz.value.length ∧
    (∀ p ∈ List.zip gsBase.type_ gsBase.denom, p.1 = 1 → p.2 ≠ 0) ∧
    (densify_and_clone [Flt.val 1] (Flt.val 0) 1 gsBase).xyz.value.length =
      gsBase.xyz.value.length +
        (cloneSel [Flt.val 1] (Flt.val 0) 1 gsBase).count true :=
  ⟨by decide, by decide, by decide,
   (c3_clone gsBase [Flt.val 1] (Flt.val 0) 1 (by decide) (by decide) (by decide)).1⟩

/-! Claim C4. -/

theorem count_true_map_not (m : List Bool) :
    (m.map not).count true = m.length - m.count true := by
  induction m with
  | nil => simp
  | cons b m ih =>
      have hle : m.count true ≤ m.length := List.count_le_length true m
      cases b <;> simp [List.count_cons, ih] <;> omega

theorem densify_and_split_xyz (orc : Oracle) (grads : List Flt) (thr : Flt)
    (extent : ℚ) (nf : ℕ) (s : GS) :
    (densify_and_split orc grads thr extent nf s).xyz.value =
      maskFilter ((splitSel grads thr extent s ++
          List.replicate (nf * (splitSel grads thr extent s).count true) false).map not)
        (s.xyz.value ++ splitNewXyz orc (splitSel grads thr extent s) nf s) := rfl

theorem densify_and_split_scaling (orc : Oracle) (grads : List Flt) (thr : Flt)
    (extent : ℚ) (nf : ℕ) (s : GS) :
    (densify_and_split orc grads thr extent nf s).scaling.value =
      maskFilter ((splitSel grads thr extent s ++
          List.replicate (nf * (splitSel grads thr extent s).count true) false).map not)
        (s.scaling.value ++ splitNewScaling (splitSel grads thr extent s) nf s) := rfl

theorem densify_and_split_f_dc (orc : Oracle) (grads : List Flt) (thr : Flt)
    (extent : ℚ) (nf : ℕ) (s : GS) :
    (densify_and_split orc grads thr extent nf s).f_dc.value =
      maskFilter ((splitSel grads thr extent s ++
          List.replicate (nf * (splitSel grads thr extent s).count true) false).map not)
        (s.f_dc.value ++ tile nf (maskFilter (splitSel grads thr extent s)
          s.f_dc.value)) := rfl

theorem densify_and_split_f_rest (orc : Oracle) (grads : List Flt) (thr : Flt)
    (extent : ℚ) (nf : ℕ) (s : GS) :
    (densify_and_split orc grads thr extent nf s).f_rest.value =
      maskFilter ((splitSel grads thr extent s ++
          List.replicate (nf * (splitSel grads thr extent s).count true) false).map not)
        (s.f_rest.value ++ tile nf (maskFilter (splitSel grads thr extent s)
          s.f_rest.value)) := rfl

theorem densify_and_split_opacity (orc : Oracle) (grads : List Flt) (thr : Flt)
    (extent : ℚ) (nf : ℕ) (s : GS) :
    (densify_and_split orc grads thr extent nf s).opacity.value =
      maskFilter ((splitSel grads thr extent s ++
          List.replicate (nf * (splitSel grads thr extent s).count true) false).map not)
        (s.opacity.value ++ tile nf (maskFilter (splitSel grads thr extent s)
          s.opacity.value)) := rfl

theorem densify_and_split_rotation (orc : Oracle) (grads : List Flt) (thr : Flt)
    (extent : ℚ) (nf : ℕ) (s : GS) :
    (densify_and_split orc grads thr extent nf s).rotation.value =
      maskFilter ((splitSel grads thr extent s ++
          List.replicate (nf * (splitSel grads thr extent s).count true) false).map not)
        (s.rotation.value ++ tile nf (maskFilter (splitSel grads thr extent s)
          s.rotation.value)) := rfl

theorem densify_and_split_type (orc : Oracle) (grads : List Flt) (thr : Flt)
    (extent : ℚ) (nf : ℕ) (s : GS) :
    (densify_and_split orc grads thr extent nf s).type_ =
      maskFilter ((splitSel grads thr extent s ++
          List.replicate (nf * (splitSel grads thr extent s).count true) false).map not)
        (s.type_ ++ tile nf (maskFilter (splitSel grads thr extent s) s.type_)) := rfl

theorem densify_and_split_score (orc : Oracle) (grads : List Flt) (thr : Flt)
    (extent : ℚ) (nf : ℕ) (s : GS) :
    (densify_and_split orc grads thr extent nf s).score =
      maskFilter ((splitSel grads thr extent s ++
          List.replicate (nf * (splitSel grads thr extent s).count true) false).map not)
        (s.score ++ tile nf (maskFilter (splitSel grads thr extent s) s.score)) := rfl

/-- C4: the split pass selects exactly the primitives whose zero-padded
gradient is at least the threshold and whose largest physical scale axis is
strictly above percent_dense * scene_extent (splitMask over padTo); for each
selected parent it appends 2 children whose position offsets are the
per-axis unit normal draws scaled by the parent's physical scale, rotated by
the parent's rotation and added to the parent position, whose raw scale is
sinv(physicalScale / (0.8 * 2)), and whose other attributes duplicate the
parent; afterwards exactly the selected parents are removed, so the
population changes from n to n + k. -/
theorem c4_split (s : GS) (orc : Oracle) (grads : List Flt) (thr : Flt) (extent : ℚ)
    (n : ℕ) (sel : List Bool) (k : ℕ) (sp : GS)
    (hwf : wf s = true) (hg : grads.length ≤ s.xyz.value.length)
    (hn : n = s.xyz.value.length) (hsel : sel = splitSel grads thr extent s)
    (hkdef : k = sel.count true) (hsp : sp = densify_and_split orc grads thr extent 2 s) :
    sp.xyz.value.length = n + k ∧
    sp.xyz.value = maskFilter (sel.map not) s.xyz.value ++ splitNewXyz orc sel 2 s ∧
    sp.scaling.value = maskFilter (sel.map not) s.scaling.value ++
      splitNewScaling sel 2 s ∧
    sp.f_dc.value = maskFilter (sel.map not) s.f_dc.value ++
      tile 2 (maskFilter sel s.f_dc.value) ∧
    sp.f_rest.value = maskFilter (sel.map not) s.f_rest.value ++
      tile 2 (maskFilter sel s.f_rest.value) ∧
    sp.opacity.value = maskFilter (sel.map not) s.opacity.value ++
      tile 2 (maskFilter sel s.opacity.value) ∧
    sp.rotation.value = maskFilter (sel.map not) s.rotation.value ++
      tile 2 (maskFilter sel s.rotation.value) ∧
    sp.type_ = maskFilter (sel.map not) s.type_ ++
      tile 2 (maskFilter sel s.type_) ∧
    sp.score = maskFilter (sel.map not) s.score ++
      tile 2 (maskFilter sel s.score) := by
  subst hsp
  subst hkdef
  subst hsel
  subst hn
  obtain ⟨h1, h2, h3, h4, h5, h6, h7, h8, h9, h10, h11, h12, h13, h14, h15, h16, h17,
    h18, h19⟩ := (wf_iff s).mp hwf
  have hselx : (splitSel grads thr extent s).length = s.xyz.value.length :=
    splitSel_length grads thr extent s h9
  have hk : (maskFilter (splitSel grads thr extent s) s.xyz.value).length =
      (splitSel grads thr extent s).count true := maskFilter_length_count hselx
  have hstds : (splitStds (splitSel grads thr extent s) 2 s).length =
      2 * (splitSel grads thr extent s).count true := by
    rw [splitStds, tile_length, maskFilter_map, List.length_map,
      maskFilter_length_congr h9, hk]
  have hrots : (tile 2 (maskFilter (splitSel grads thr extent s)
      s.rotation.value)).length = 2 * (splitSel grads thr extent s).count true := by
    rw [tile_length, maskFilter_length_congr h11, hk]
  have hsamp : (splitSamples orc (splitSel grads thr extent s) 2 s).length =
      2 * (splitSel grads thr extent s).count true := by
    rw [splitSamples, List.length_zipWith, List.length_map, List.length_range,
      Nat.min_self, hstds]
  have he1 : (splitNewXyz orc (splitSel grads thr extent s) 2 s).length =
      2 * (splitSel grads thr extent s).count true := by
    rw [splitNewXyz,
      zip3With_length _ _ _ _ (by rw [hsamp, hrots]) (by rw [tile_length, hk, hrots]),
      hrots]
  refine ⟨?_, ?_, ?_, ?_, ?_, ?_, ?_, ?_, ?_⟩
  · have hnotlen : ((splitSel grads thr extent s).map not).length =
        s.xyz.value.length := by
      rw [List.length_map]
      exact hselx
    have hcnt := List.count_le_length true (splitSel grads thr extent s)
    rw [densify_and_split_xyz, maskFilter_prunefilter hselx he1, List.length_append,
      maskFilter_length_count hnotlen, count_true_map_not, he1, hselx]
    clear * - hcnt hselx
    omega
  · rw [densify_and_split_xyz]
    exact maskFilter_prunefilter hselx he1
  · rw [densify_and_split_scaling]
    exact maskFilter_prunefilter (hselx.trans h9.symm)
      (by rw [splitNewScaling, List.length_map, hstds])
  · rw [densify_and_split_f_dc]
    exact maskFilter_prunefilter (hselx.trans h3.symm)
      (by rw [tile_length, maskFilter_length_congr h3, hk])
  · rw [densify_and_split_f_rest]
    exact maskFilter_prunefilter (hselx.trans h5.symm)
      (by rw [tile_length, maskFilter_length_congr h5, hk])
  · rw [densify_and_split_opacity]
    exact maskFilter_prunefilter (hselx.trans h7.symm)
      (by rw [tile_length, maskFilter_length_congr h7, hk])
  · rw [densify_and_split_rotation]
    exact maskFilter_prunefilter (hselx.trans h11.symm)
      (by rw [tile_length, maskFilter_length_congr h11, hk])
  · rw [densify_and_split_type]
    exact maskFilter_prunefilter (hselx.trans h13.symm)
      (by rw [tile_length, maskFilter_length_congr h13, hk])
  · rw [densify_and_split_score]
    exact maskFilter_prunefilter (hselx.trans h14.symm)
      (by rw [tile_length, maskFilter_length_congr h14, hk])

/-- Witness for C4 at a concrete store whose single primitive satisfies the
split predicate. -/
theorem c4_split_witness :
    wf gsBase = true ∧
    ([Flt.val 1] : List Flt).length ≤ gsBase.xyz.value.length ∧
    (densify_and_split orc0 [Flt.val 1] (Flt.val 0) 0 2 gsBase).xyz.value.length =
      gsBase.xyz.value.length +
        (splitSel [Flt.val 1] (Flt.val 0) 0 gsBase).count true :=
  ⟨by decide, by decide,
   (c4_split gsBase orc0 [Flt.val 1] (Flt.val 0) 0 gsBase.xyz.value.length
      (splitSel [Flt.val 1] (Flt.val 0) 0 gsBase)
      ((splitSel [Flt.val 1] (Flt.val 0) 0 gsBase).count true)
      (densify_and_split orc0 [Flt.val 1] (Flt.val 0) 0 2 gsBase)
      (by decide) (by decide) rfl rfl rfl rfl).1⟩

/-! Claim C5. -/

/-- C5 counterexample: with maxScreenSize set to 0, the claim's extended
predicate marks the primitive of s5 for removal (screen radius 5 > 0), but
the source tests the Python truthiness of max_screen_size (line 608), so 0
disables the extra conditions and the pruning pass keeps the primitive. -/
theorem c5_counterexample :
    c5_claimedRemoveMask 0 1 (some 0) s5 = [true] ∧
    (prunePass 0 1 (some 0) s5).xyz.value = s5.xyz.value ∧
    s5.xyz.value.length = 1 := by
  refine ⟨?_, ?_, ?_⟩
  · norm_num [c5_claimedRemoveMask, s5, gsBase, mapVec, maxComp]
  · norm_num [prunePass, pruneMaskOf, prune_points, pruneParam, maskFilter, s5,
      gsBase, mapVec, maxComp]
  · rfl

/-- C5 (amended): the pruning pass removes exactly the primitives where
physicalOpacity < minOpacity, except that when maxScreenSize is set to a
nonzero value a primitive is removed when physicalOpacity < minOpacity OR
maxScreenRadius > maxScreenSize OR max(physicalScale) > 0.1 * extent; no
primitive is removed for any other reason in this pass, and the surviving
primitives keep their attributes and relative order (every attribute array
of the result is the mask-filter of the original). -/
theorem c5_prune_amended (s : GS) (min_opacity extent : ℚ) (mss : Option ℚ)
    (hwf : wf s = true)
    (hmss : mss = none ∨ ∃ v, mss = some v ∧ v ≠ 0) :
    let pm := c5_claimedRemoveMask min_opacity extent mss s
    (prunePass min_opacity extent mss s).xyz.value =
      maskFilter (pm.map not) s.xyz.value ∧
    (prunePass min_opacity extent mss s).f_dc.value =
      maskFilter (pm.map not) s.f_dc.value ∧
    (prunePass min_opacity extent mss s).f_rest.value =
      maskFilter (pm.map not) s.f_rest.value ∧
    (prunePass min_opacity extent mss s).opacity.value =
      maskFilter (pm.map not) s.opacity.value ∧
    (prunePass min_opacity extent mss s).scaling.value =
      maskFilter (pm.map not) s.scaling.value ∧
    (prunePass min_opacity extent mss s).rotation.value =
      maskFilter (pm.map not) s.rotation.value ∧
    (prunePass min_opacity extent mss s).type_ =
      maskFilter (pm.map not) s.type_ ∧
    (prunePass min_opacity extent mss s).score =
      maskFilter (pm.map not) s.score := by
  intro pm
  have hmask : pruneMaskOf min_opacity extent mss s =
      c5_claimedRemoveMask min_opacity extent mss s := by
    rcases hmss with hnone | ⟨v, hv, hvne⟩
    · subst hnone
      rfl
    · subst hv
      show (if v ≠ 0 then _ else _) = _
      rw [if_pos hvne]
      rfl
  refine ⟨?_, ?_, ?_, ?_, ?_, ?_, ?_, ?_⟩ <;>
    · show maskFilter ((pruneMaskOf min_opacity extent mss s).map not) _ = _
      rw [hmask]

/-- Witness for the amended C5 at a concrete store with maxScreenSize absent. -/
theorem c5_prune_amended_witness :
    wf gsBase = true ∧
    (prunePass 0 1 none gsBase).xyz.value =
      maskFilter ((c5_claimedRemoveMask 0 1 none gsBase).map not) gsBase.xyz.value :=
  ⟨by decide, (c5_prune_amended gsBase 0 1 none (by decide) (Or.inl rfl)).1⟩

/-! Claim C6: helper lemmas. -/

theorem tile_nil {α : Type _} (n : ℕ) : tile n ([] : List α) = [] := by
  induction n with
  | zero => rfl
  | succ n ih => simp [ih]

theorem zip3With_nil_left (f : α → β → γ → δ) (bs : List β) (cs : List γ) :
    zip3With f [] bs cs = [] := by
  cases bs <;> cases cs <;> rfl

theorem maskedAdd_nil (adds : List Vec3) : maskedAdd [] [] adds = [] := by
  cases adds <;> rfl

theorem computeGrads_all_val (accum : List ℚ) (denom : List ℕ)
    (h : ∀ p ∈ List.zip accum denom, p.2 = 0 → p.1 = 0) :
    ∀ g ∈ computeGrads accum denom, ∃ q, g = Flt.val q := by
  rw [computeGrads_eq accum denom h]
  clear h
  induction accum generalizing denom with
  | nil =>
      intro g hg
      simp at hg
  | cons a as ih =>
      cases denom with
      | nil =>
          intro g hg
          simp at hg
      | cons d ds =>
          intro g hg
          rw [List.zipWith_cons_cons] at hg
          rcases List.mem_cons.mp hg with h1 | h2
          · exact ⟨_, h1⟩
          · exact ih ds g h2

theorem map_allFalse {f : Flt → Bool} {gs : List Flt}
    (hval : ∀ g ∈ gs, ∃ q, g = Flt.val q) (hf : ∀ q, f (Flt.val q) = false) :
    ∀ a ∈ gs.map f, a = false := by
  intro a ha
  rcases List.mem_map.mp ha with ⟨g, hg, rfl⟩
  rcases hval g hg with ⟨q, rfl⟩
  exact hf q

theorem zipWith_and_allFalse {m1 m2 : List Bool} (h : ∀ a ∈ m1, a = false) :
    ∀ b ∈ List.zipWith (· && ·) m1 m2, b = false := by
  induction m1 generalizing m2 with
  | nil =>
      intro b hb
      simp at hb
  | cons a m1 ih =>
      cases m2 with
      | nil =>
          intro b hb
          simp at hb
      | cons c m2 =>
          intro b hb
          rw [List.zipWith_cons_cons] at hb
          rcases List.mem_cons.mp hb with h1 | h2
          · have ha : a = false := h a (List.mem_cons_self _ _)
            rw [h1, ha, Bool.false_and]
          · exact ih (fun x hx => h x (List.mem_cons_of_mem _ hx)) b h2

theorem padTo_all_val {n : ℕ} {grads : List Flt}
    (h : ∀ g ∈ grads, ∃ q, g = Flt.val q) :
    ∀ g ∈ padTo n grads, ∃ q, g = Flt.val q := by
  intro g hg
  rw [padTo] at hg
  rcases List.mem_append.mp hg with h1 | h2
  · exact h g (List.take_subset n grads h1)
  · exact ⟨0, List.eq_of_mem_replicate h2⟩

theorem densify_and_clone_xyz (grads : List Flt) (thr : Flt) (extent : ℚ) (s : GS) :
    (densify_and_clone grads thr extent s).xyz.value =
      s.xyz.value ++ maskedAdd
        ((maskFilter (cloneSel grads thr extent s) s.type_).map fun t => decide (t = 1))
        (maskFilter (cloneSel grads thr extent s) s.xyz.value)
        (maskFilter (cloneSel2 (cloneSel grads thr extent s) s.type_)
          (List.zipWith vdivN s.position_gradient_accum s.denom)) := rfl

theorem densify_and_clone_f_dc (grads : List Flt) (thr : Flt) (extent : ℚ) (s : GS) :
    (densify_and_clone grads thr extent s).f_dc.value =
      s.f_dc.value ++ maskFilter (cloneSel grads thr extent s) s.f_dc.value := rfl

theorem densify_and_clone_f_rest (grads : List Flt) (thr : Flt) (extent : ℚ) (s : GS) :
    (densify_and_clone grads thr extent s).f_rest.value =
      s.f_rest.value ++ maskFilter (cloneSel grads thr extent s) s.f_rest.value := rfl

theorem densify_and_clone_opacity (grads : List Flt) (thr : Flt) (extent : ℚ) (s : GS) :
    (densify_and_clone grads thr extent s).opacity.value =
      s.opacity.value ++ maskFilter (cloneSel grads thr extent s) s.opacity.value := rfl

theorem densify_and_clone_scaling (grads : List Flt) (thr : Flt) (extent : ℚ) (s : GS) :
    (densify_and_clone grads thr extent s).scaling.value =
      s.scaling.value ++ maskFilter (cloneSel grads thr extent s) s.scaling.value := rfl

theorem densify_and_clone_rotation (grads : List Flt) (thr : Flt) (extent : ℚ) (s : GS) :
    (densify_and_clone grads thr extent s).rotation.value =
      s.rotation.value ++ maskFilter (cloneSel grads thr extent s) s.rotation.value := rfl

theorem densify_and_clone_type (grads : List Flt) (thr : Flt) (extent : ℚ) (s : GS) :
    (densify_and_clone grads thr extent s).type_ =
      s.type_ ++ maskFilter (cloneSel grads thr extent s) s.type_ := rfl

theorem densify_and_clone_score (grads : List Flt) (thr : Flt) (extent : ℚ) (s : GS) :
    (densify_and_clone grads thr extent s).score =
      s.score ++ maskFilter (cloneSel grads thr extent s) s.score := rfl

theorem prunePass_xyz (mo extent : ℚ) (mss : Option ℚ) (s : GS) :
    (prunePass mo extent mss s).xyz.value =
      maskFilter ((pruneMaskOf mo extent mss s).map not) s.xyz.value := rfl

theorem prunePass_f_dc (mo extent : ℚ) (mss : Option ℚ) (s : GS) :
    (prunePass mo extent mss s).f_dc.value =
      maskFilter ((pruneMaskOf mo extent mss s).map not) s.f_dc.value := rfl

theorem prunePass_f_rest (mo extent : ℚ) (mss : Option ℚ) (s : GS) :
    (prunePass mo extent mss s).f_rest.value =
      maskFilter ((pruneMaskOf mo extent mss s).map not) s.f_rest.value := rfl

theorem prunePass_opacity (mo extent : ℚ) (mss : Option ℚ) (s : GS) :
    (prunePass mo extent mss s).opacity.value =
      maskFilter ((pruneMaskOf mo extent mss s).map not) s.opacity.value := rfl

theorem prunePass_scaling (mo extent : ℚ) (mss : Option ℚ) (s : GS) :
    (prunePass mo extent mss s).scaling.value =
      maskFilter ((pruneMaskOf mo extent mss s).map not) s.scaling.value := rfl

theorem prunePass_rotation (mo extent : ℚ) (mss : Option ℚ) (s : GS) :
    (prunePass mo extent mss s).rotation.value =
      maskFilter ((pruneMaskOf mo extent mss s).map not) s.rotation.value := rfl

theorem prunePass_type (mo extent : ℚ) (mss : Option ℚ) (s : GS) :
    (prunePass mo extent mss s).type_ =
      maskFilter ((pruneMaskOf mo extent mss s).map not) s.type_ := rfl

theorem prunePass_score (mo extent : ℚ) (mss : Option ℚ) (s : GS) :
    (prunePass mo extent mss s).score =
      maskFilter ((pruneMaskOf mo extent mss s).map not) s.score := rfl

theorem clone_allFalse_popAttrs (s : GS) (grads : List Flt) (thr : Flt) (extent : ℚ)
    (h : ∀ b ∈ cloneSel grads thr extent s, b = false) :
    popAttrs (densify_and_clone grads thr extent s) = popAttrs s := by
  have hmf : ∀ {α : Type} (xs : List α),
      maskFilter (cloneSel grads thr extent s) xs = [] :=
    fun xs => maskFilter_allFalse xs h
  simp only [popAttrs, Prod.mk.injEq, densify_and_clone_xyz, densify_and_clone_f_dc,
    densify_and_clone_f_rest, densify_and_clone_opacity, densify_and_clone_scaling,
    densify_and_clone_rotation, densify_and_clone_type, densify_and_clone_score,
    hmf, List.map_nil, maskedAdd_nil, List.append_nil]

theorem split_allFalse_popAttrs (s : GS) (orc : Oracle) (grads : List Flt) (thr : Flt)
    (extent : ℚ) (nf : ℕ) (hwf : wf s = true)
    (h : ∀ b ∈ splitSel grads thr extent s, b = false) :
    popAttrs (densify_and_split orc grads thr extent nf s) = popAttrs s := by
  obtain ⟨h1, h2, h3, h4, h5, h6, h7, h8, h9, h10, h11, h12, h13, h14, h15, h16, h17,
    h18, h19⟩ := (wf_iff s).mp hwf
  have hselx : (splitSel grads thr extent s).length = s.xyz.value.length :=
    splitSel_length grads thr extent s h9
  have hmf : ∀ {α : Type} (xs : List α),
      maskFilter (splitSel grads thr extent s) xs = [] :=
    fun xs => maskFilter_allFalse xs h
  have hcnt : (splitSel grads thr extent s).count true = 0 :=
    List.count_eq_zero.mpr fun hmem => by
      have := h true hmem
      simp at this
  have hkeep : ∀ {α : Type} (xs ext : List α), xs.length = s.xyz.value.length →
      ext = [] →
      maskFilter ((splitSel grads thr extent s ++
        List.replicate (nf * (splitSel grads thr extent s).count true) false).map not)
        (xs ++ ext) = xs := by
    intro α xs ext hxs hext
    subst hext
    rw [List.append_nil, hcnt, Nat.mul_zero, List.replicate_zero, List.append_nil]
    refine maskFilter_allTrue ?_ ?_
    · rw [List.length_map, hselx, hxs]
    · intro b hb
      rcases List.mem_map.mp hb with ⟨a, ha, rfl⟩
      rw [h a ha]
      rfl
  have hnx : splitNewXyz orc (splitSel grads thr extent s) nf s = [] := by
    rw [splitNewXyz, hmf, tile_nil, zip3With_nil_left]
  have hns : splitNewScaling (splitSel grads thr extent s) nf s = [] := by
    rw [splitNewScaling, splitStds, hmf, tile_nil, List.map_nil]
  simp only [popAttrs, Prod.mk.injEq, densify_and_split_xyz, densify_and_split_f_dc,
    densify_and_split_f_rest, densify_and_split_opacity, densify_and_split_scaling,
    densify_and_split_rotation, densify_and_split_type, densify_and_split_score]
  refine ⟨hkeep _ _ rfl hnx, hkeep _ _ h3 (by rw [hmf, tile_nil]),
    hkeep _ _ h5 (by rw [hmf, tile_nil]), hkeep _ _ h7 (by rw [hmf, tile_nil]),
    hkeep _ _ h9 hns, hkeep _ _ h11 (by rw [hmf, tile_nil]),
    hkeep _ _ h13 (by rw [hmf, tile_nil]), hkeep _ _ h14 (by rw [hmf, tile_nil])⟩

theorem prunePass_keep_all (s : GS) (extent : ℚ) (hwf : wf s = true)
    (hop : ∀ q, 0 ≤ s.oact q) :
    popAttrs (prunePass 0 extent none s) = popAttrs s := by
  obtain ⟨h1, h2, h3, h4, h5, h6, h7, h8, h9, h10, h11, h12, h13, h14, h15, h16, h17,
    h18, h19⟩ := (wf_iff s).mp hwf
  have hmask : ∀ b ∈ pruneMaskOf 0 extent none s, b = false := by
    intro b hb
    rcases List.mem_map.mp hb with ⟨o, ho, rfl⟩
    exact decide_eq_false (not_lt.mpr (hop o))
  have hkeep : ∀ {α : Type} (xs : List α), xs.length = s.xyz.value.length →
      maskFilter ((pruneMaskOf 0 extent none s).map not) xs = xs := by
    intro α xs hxs
    refine maskFilter_allTrue ?_ ?_
    · rw [List.length_map]
      show (s.opacity.value.map fun o => decide (s.oact o < 0)).length = xs.length
      rw [List.length_map, h7, hxs]
    · intro b hb
      rcases List.mem_map.mp hb with ⟨a, ha, rfl⟩
      rw [hmask a ha]
      rfl
  simp only [popAttrs, Prod.mk.injEq, prunePass_xyz, prunePass_f_dc, prunePass_f_rest,
    prunePass_opacity, prunePass_scaling, prunePass_rotation, prunePass_type,
    prunePass_score]
  exact ⟨hkeep _ rfl, hkeep _ h3, hkeep _ h5, hkeep _ h7, hkeep _ h9, hkeep _ h11,
    hkeep _ h13, hkeep _ h14⟩

theorem wf_reset_modify (s : GS) (h : wf s = true) (mid : List ℕ) :
    wf { reset_xyz_id s with modify_id := mid } = true := by
  obtain ⟨h1, h2, h3, h4, h5, h6, h7, h8, h9, h10, h11, h12, h13, h14, h15, h16, h17,
    h18, h19⟩ := (wf_iff s).mp h
  apply wf_of_lensOk (n := s.xyz.value.length)
  exact ⟨h1, h2, h3, h4, h5, h6, h7, h8, h9, h10, h11, h12, h13, h14,
    List.length_range _, h16, h17, h18, h19⟩

/-- C6: densify_and_prune with gradThreshold = +inf, minOpacity = 0 and
maxScreenSize = None leaves the primitive population identical: nothing is
cloned, split or pruned, and every persistent per-primitive attribute value
(position, color coefficients, raw opacity, raw scale, raw rotation, type,
score) is unchanged.  The hypotheses state that never-visible primitives
carry zero accumulators (invariant of add_densification_stats) and that the
opacity activation is nonnegative (true of sigmoid), which make the +inf
threshold and zero opacity floor unreachable. -/
theorem c6_idempotent (s : GS) (orc : Oracle) (extent : ℚ)
    (hwf : wf s = true)
    (hfin : ∀ p ∈ List.zip s.xyz_gradient_accum s.denom, p.2 = 0 → p.1 = 0)
    (hop : ∀ q, 0 ≤ s.oact q) :
    popAttrs (densify_and_prune orc Flt.posInf 0 extent none s) = popAttrs s := by
  have hval := computeGrads_all_val s.xyz_gradient_accum s.denom hfin
  have hwf1 : wf { reset_xyz_id s with modify_id := ([] : List ℕ) } = true :=
    wf_reset_modify s hwf []
  have hmask1 : ∀ b ∈ cloneSel (computeGrads s.xyz_gradient_accum s.denom) Flt.posInf
      extent { reset_xyz_id s with modify_id := ([] : List ℕ) }, b = false :=
    zipWith_and_allFalse (map_allFalse hval fun q => rfl)
  have hpop2 := clone_allFalse_popAttrs
    { reset_xyz_id s with modify_id := ([] : List ℕ) }
    (computeGrads s.xyz_gradient_accum s.denom) Flt.posInf extent hmask1
  have hwf2 : wf (densify_and_clone (computeGrads s.xyz_gradient_accum s.denom)
      Flt.posInf extent { reset_xyz_id s with modify_id := ([] : List ℕ) }) = true :=
    wf_densify_and_clone _ _ _ _ hwf1
  have hmask2 : ∀ b ∈ splitSel (computeGrads s.xyz_gradient_accum s.denom) Flt.posInf
      extent (densify_and_clone (computeGrads s.xyz_gradient_accum s.denom) Flt.posInf
        extent { reset_xyz_id s with modify_id := ([] : List ℕ) }), b = false :=
    zipWith_and_allFalse (map_allFalse (padTo_all_val hval) fun q => rfl)
  have hpop3 := split_allFalse_popAttrs
    (densify_and_clone (computeGrads s.xyz_gradient_accum s.denom) Flt.posInf extent
      { reset_xyz_id s with modify_id := ([] : List ℕ) })
    orc (computeGrads s.xyz_gradient_accum s.denom) Flt.posInf extent 2 hwf2 hmask2
  have hwf3 : wf (densify_and_split orc (computeGrads s.xyz_gradient_accum s.denom)
      Flt.posInf extent 2
      (densify_and_clone (computeGrads s.xyz_gradient_accum s.denom) Flt.posInf extent
        { reset_xyz_id s with modify_id := ([] : List ℕ) })) = true :=
    wf_densify_and_split _ _ _ _ _ _ hwf2
  have hpop4 := prunePass_keep_all
    (densify_and_split orc (computeGrads s.xyz_gradient_accum s.denom) Flt.posInf
      extent 2
      (densify_and_clone (computeGrads s.xyz_gradient_accum s.denom) Flt.posInf extent
        { reset_xyz_id s with modify_id := ([] : List ℕ) }))
    extent hwf3 hop
  exact hpop4.trans (hpop3.trans hpop2)

/-- Witness for C6 at a concrete store. -/
theorem c6_idempotent_witness :
    wf gsW6 = true ∧
    (∀ p ∈ List.zip gsW6.xyz_gradient_accum gsW6.denom, p.2 = 0 → p.1 = 0) ∧
    (∀ q, (0 : ℚ) ≤ gsW6.oact q) ∧
    popAttrs (densify_and_prune orc0 Flt.posInf 0 1 none gsW6) = popAttrs gsW6 :=
  ⟨by decide, by decide,
   fun q => by
     show (0 : ℚ) ≤ 1
     decide,
   c6_idempotent gsW6 orc0 1 (by decide) (by decide)
     (fun q => by
       show (0 : ℚ) ≤ 1
       decide)⟩

/-! Claim C7. -/

theorem zipWith_or_allTrue {m1 m2 : List Bool} (h : ∀ a ∈ m1, a = true) :
    ∀ b ∈ List.zipWith (· || ·) m1 m2, b = true := by
  induction m1 generalizing m2 with
  | nil =>
      intro b hb
      simp at hb
  | cons a m1 ih =>
      cases m2 with
      | nil =>
          intro b hb
          simp at hb
      | cons c m2 =>
          intro b hb
          rw [List.zipWith_cons_cons] at hb
          rcases List.mem_cons.mp hb with h1 | h2
          · have ha : a = true := h a (List.mem_cons_self _ _)
            rw [h1, ha, Bool.true_or]
          · exact ih (fun x hx => h x (List.mem_cons_of_mem _ hx)) b h2

theorem pruneMaskOf_some_eq (mo extent : ℚ) (v : ℚ) (s : GS) :
    pruneMaskOf mo extent (some v) s =
      if v ≠ 0 then
        List.zipWith (· || ·) (List.zipWith (· || ·)
          (s.opacity.value.map fun o => decide (s.oact o < mo))
          (s.max_radii2D.map fun r => decide (v < r)))
          (s.scaling.value.map fun sc =>
            decide ((1 / 10 : ℚ) * extent < maxComp (mapVec s.sact sc)))
      else s.opacity.value.map fun o => decide (s.oact o < mo) := rfl

theorem clone_opacity_subset (grads : List Flt) (thr : Flt) (extent : ℚ) (s : GS) :
    ∀ o ∈ (densify_and_clone grads thr extent s).opacity.value,
      o ∈ s.opacity.value := by
  intro o ho
  rw [densify_and_clone_opacity] at ho
  rcases List.mem_append.mp ho with h | h
  · exact h
  · exact mem_maskFilter h

theorem split_opacity_subset (orc : Oracle) (grads : List Flt) (thr : Flt)
    (extent : ℚ) (nf : ℕ) (s : GS) :
    ∀ o ∈ (densify_and_split orc grads thr extent nf s).opacity.value,
      o ∈ s.opacity.value := by
  intro o ho
  rw [densify_and_split_opacity] at ho
  rcases List.mem_append.mp (mem_maskFilter ho) with h | h
  · exact h
  · exact mem_maskFilter (mem_tile h)

theorem wf_densify_and_prune (s : GS) (orc : Oracle) (mg : Flt) (mo extent : ℚ)
    (mss : Option ℚ) (h : wf s = true) :
    wf (densify_and_prune orc mg mo extent mss s) = true := by
  have h1 := wf_reset_modify s h []
  have h2 := wf_densify_and_clone _ (computeGrads s.xyz_gradient_accum s.denom) mg
    extent h1
  have h3 := wf_densify_and_split _ orc (computeGrads s.xyz_gradient_accum s.denom)
    mg extent 2 h2
  exact wf_prune_points _ (pruneMaskOf mo extent mss _) h3

/-- All entries of the pruning mask of the post-densification state are
true when every physical opacity of the entry store is below the minimum. -/
theorem dap_empties (s : GS) (orc : Oracle) (mg : Flt) (mo extent : ℚ)
    (mss : Option ℚ) (hwf : wf s = true)
    (hall : ∀ o ∈ s.opacity.value, s.oact o < mo) :
    emptyPop (densify_and_prune orc mg mo extent mss s) := by
  have hall3 : ∀ o ∈ (dapMid orc mg extent s).opacity.value, s.oact o < mo := by
    intro o ho
    refine hall o (clone_opacity_subset (computeGrads s.xyz_gradient_accum s.denom)
      mg extent { reset_xyz_id s with modify_id := [] } o ?_)
    exact split_opacity_subset orc (computeGrads s.xyz_gradient_accum s.denom) mg
      extent 2
      (densify_and_clone (computeGrads s.xyz_gradient_accum s.denom) mg extent
        { reset_xyz_id s with modify_id := [] }) o ho
  have hbase : ∀ b ∈ (dapMid orc mg extent s).opacity.value.map
      (fun o => decide ((dapMid orc mg extent s).oact o < mo)), b = true := by
    intro b hb
    rcases List.mem_map.mp hb with ⟨o, ho, rfl⟩
    exact decide_eq_true (hall3 o ho)
  have hmask : ∀ b ∈ pruneMaskOf mo extent mss (dapMid orc mg extent s), b = true := by
    cases mss with
    | none => exact hbase
    | some v =>
        rw [pruneMaskOf_some_eq]
        by_cases hv : v ≠ 0
        · rw [if_pos hv]
          exact zipWith_or_allTrue (zipWith_or_allTrue hbase)
        · rw [if_neg hv]
          exact hbase
  have hvalid : ∀ b ∈ (pruneMaskOf mo extent mss (dapMid orc mg extent s)).map not,
      b = false := by
    intro b hb
    rcases List.mem_map.mp hb with ⟨a, ha, rfl⟩
    rw [hmask a ha]
    rfl
  exact ⟨maskFilter_allFalse _ hvalid, maskFilter_allFalse _ hvalid,
    maskFilter_allFalse _ hvalid, maskFilter_allFalse _ hvalid,
    maskFilter_allFalse _ hvalid, maskFilter_allFalse _ hvalid,
    maskFilter_allFalse _ hvalid, maskFilter_allFalse _ hvalid⟩

/-- C7: pruning with a minimum opacity above every physical opacity yields
the empty population (every persistent array empty), this is a valid state,
and a subsequent densify_and_prune call on the empty store is a safe no-op:
it completes and leaves the population empty, for any parameters of the
second call. -/
theorem c7_prune_to_empty (s : GS) (orc orc2 : Oracle) (mg mg2 : Flt)
    (mo mo2 extent extent2 : ℚ) (mss mss2 : Option ℚ)
    (hwf : wf s = true)
    (hall : ∀ o ∈ s.opacity.value, s.oact o < mo) :
    emptyPop (densify_and_prune orc mg mo extent mss s) ∧
    emptyPop (densify_and_prune orc2 mg2 mo2 extent2 mss2
      (densify_and_prune orc mg mo extent mss s)) := by
  have h1 := dap_empties s orc mg mo extent mss hwf hall
  have hwf1 := wf_densify_and_prune s orc mg mo extent mss hwf
  have hall1 : ∀ o ∈ (densify_and_prune orc mg mo extent mss s).opacity.value,
      (densify_and_prune orc mg mo extent mss s).oact o < mo2 := by
    intro o ho
    rw [h1.2.2.2.1] at ho
    simp at ho
  exact ⟨h1, dap_empties _ orc2 mg2 mo2 extent2 mss2 hwf1 hall1⟩

/-- Witness for C7 at a concrete store whose single physical opacity is 0,
below the minimum opacity 1. -/
theorem c7_prune_to_empty_witness :
    wf gsW7 = true ∧
    (∀ o ∈ gsW7.opacity.value, gsW7.oact o < 1) ∧
    emptyPop (densify_and_prune orc0 (Flt.val 0) 1 1 none gsW7) ∧
    emptyPop (densify_and_prune orc0 (Flt.val 0) 1 1 none
      (densify_and_prune orc0 (Flt.val 0) 1 1 none gsW7)) :=
  ⟨by decide, by decide,
   (c7_prune_to_empty gsW7 orc0 orc0 (Flt.val 0) (Flt.val 0) 1 1 1 1 none none
     (by decide) (by decide)).1,
   (c7_prune_to_empty gsW7 orc0 orc0 (Flt.val 0) (Flt.val 0) 1 1 1 1 none none
     (by decide) (by decide)).2⟩

/-! Claim C8. -/

/-- C8 counterexample: the claim says PLANAR (type 1) primitives get their
third raw scale axis forced equal to the second and VOLUMETRIC (type 0)
primitives keep three axes with the smallest fixed small.  The mask at line
265 is type == 0, so the store p8 with one PLANAR point initializes to
(1/200, 1/200, 1/1000) — third axis not equal to the second — while the
VOLUMETRIC store p8v gets (1/200, 1/200, 1/200) — third axis overwritten
with the second, not kept small. -/
theorem c8_counterexample :
    (create_from_pcd id id id p8 0).type_ = [1] ∧
    (create_from_pcd id id id p8 0).scaling.value =
      [((1 / 200 : ℚ), (1 / 200 : ℚ), (1 / 1000 : ℚ))] ∧
    ((1 / 1000 : ℚ) ≠ 1 / 200) ∧
    (create_from_pcd id id id p8v 0).type_ = [0] ∧
    (create_from_pcd id id id p8v 0).scaling.value =
      [((1 / 200 : ℚ), (1 / 200 : ℚ), (1 / 200 : ℚ))] := by
  refine ⟨rfl, ?_, by norm_num, rfl, ?_⟩
  · show initScale p8 = _
    norm_num [initScale, clampedDist2, p8]
  · show initScale p8v = _
    norm_num [initScale, clampedDist2, p8v, p8]

/-- Helper for C8: the per-point effect of the type == 0 masked assignment
of line 266, for any pre-scale list whose entries have equal first axes and
a constant third axis. -/
theorem zip_types_force (types : List ℚ) (pre : List Vec3) (c : ℚ)
    (hpre : ∀ v ∈ pre, v.1 = v.2.1 ∧ v.2.2 = c) :
    ∀ tv ∈ List.zip types (List.zipWith (fun t (v : Vec3) =>
        if t = 0 then (v.1, v.2.1, v.2.1) else v) types pre),
      tv.2.1 = tv.2.2.1 ∧ (tv.1 = 0 → tv.2.2.2 = tv.2.2.1) ∧
      (tv.1 ≠ 0 → tv.2.2.2 = c) := by
  induction types generalizing pre with
  | nil =>
      intro tv h
      simp at h
  | cons t ts ih =>
      cases pre with
      | nil =>
          intro tv h
          simp at h
      | cons v pre =>
          intro tv h
          rw [List.zipWith_cons_cons, List.zip_cons_cons] at h
          rcases List.mem_cons.mp h with h1 | h2
          · obtain ⟨hv1, hv2⟩ := hpre v (List.mem_cons_self _ _)
            subst h1
            by_cases ht : t = 0
            · refine ⟨?_, ?_, ?_⟩
              · simpa [if_pos ht] using hv1
              · intro h0
                simp [if_pos ht]
              · intro hne
                exact absurd ht hne
            · refine ⟨?_, ?_, ?_⟩
              · simpa [if_neg ht] using hv1
              · intro h0
                exact absurd h0 ht
              · intro hne
                simpa [if_neg ht] using hv2
          · exact ih pre (fun w hw => hpre w (List.mem_cons_of_mem _ hw)) tv h2

/-- C8 (amended): at initialization from a point cloud, every primitive
whose type is 0 (VOLUMETRIC) has its third raw scale axis forced equal to
the second, while every primitive of any other type (including PLANAR,
type 1) keeps the small constant third axis log(1e-3); the first two raw
axes are always equal.  The claim's roles of the two types are swapped
relative to the code. -/
theorem c8_init_scale_amended (sact sinv oact : ℚ → ℚ) (p : PcdIn) (maxSh : ℕ) :
    ∀ tv ∈ List.zip p.types (create_from_pcd sact sinv oact p maxSh).scaling.value,
      tv.2.1 = tv.2.2.1 ∧ (tv.1 = 0 → tv.2.2.2 = tv.2.2.1) ∧
      (tv.1 ≠ 0 → tv.2.2.2 = p.logQ (1 / 1000)) := by
  intro tv h
  have hpre : ∀ v ∈ (clampedDist2 p).map (fun d =>
      (p.logQ (p.sqrtQ (d / 2)), p.logQ (p.sqrtQ (d / 2)), p.logQ (1 / 1000))),
      v.1 = v.2.1 ∧ v.2.2 = p.logQ (1 / 1000) := by
    intro v hv
    rcases List.mem_map.mp hv with ⟨d, hd, rfl⟩
    exact ⟨rfl, rfl⟩
  exact zip_types_force p.types _ (p.logQ (1 / 1000)) hpre tv h

/-- Witness for the amended C8 at a concrete VOLUMETRIC point whose
initial scales are literals. -/
theorem c8_init_scale_amended_witness :
    ((0 : ℚ), ((7 : ℚ), (7 : ℚ), (7 : ℚ))) ∈
      List.zip pw8.types (create_from_pcd id id id pw8 0).scaling.value ∧
    ((7 : ℚ) = 7 ∧ ((0 : ℚ) = 0 → (7 : ℚ) = 7) ∧
      ((0 : ℚ) ≠ 0 → (7 : ℚ) = pw8.logQ (1 / 1000))) :=
  ⟨by decide,
   c8_init_scale_amended id id id pw8 0 ((0 : ℚ), ((7 : ℚ), (7 : ℚ), (7 : ℚ)))
     (by decide)⟩

/-! Claim C9. -/

theorem zip3With_mk (r : List Vec3) :
    zip3With (fun a b c => ((a, b, c) : Vec3)) (r.map fun v => v.1)
      (r.map fun v => v.2.1) (r.map fun v => v.2.2) = r := by
  induction r with
  | nil => rfl
  | cons v r ih =>
      obtain ⟨a, b, c⟩ := v
      simp [zip3With, ih]

theorem unflatten_flatten (r : List Vec3) :
    unflattenRest r.length (flattenRest r) = r := by
  have hA : (List.map (fun (v : Vec3) => v.1) r).length = r.length := by simp
  have hB : (List.map (fun (v : Vec3) => v.2.1) r).length = r.length := by simp
  have hC : (List.map (fun (v : Vec3) => v.2.2) r).length = r.length := by simp
  rw [unflattenRest, flattenRest]
  rw [List.take_left' hA, List.drop_left' hA, List.take_left' hB, two_mul,
    ← List.drop_drop, List.drop_left' hA, List.drop_left' hB, ← hC,
    List.take_length]
  exact zip3With_mk r

theorem buildVerts_fields (xs ns dcs : List Vec3) (frs : List (List Vec3))
    (os : List ℚ) (scs : List Vec3) (qs : List Quat) (ts : List ℚ)
    (h1 : ns.length = xs.length) (h2 : dcs.length = xs.length)
    (h3 : frs.length = xs.length) (h4 : os.length = xs.length)
    (h5 : scs.length = xs.length) (h6 : qs.length = xs.length)
    (h7 : ts.length = xs.length) :
    (buildVerts xs ns dcs frs os scs qs ts).map (fun v => ((v.x, v.y, v.z) : Vec3)) =
        xs ∧
    (buildVerts xs ns dcs frs os scs qs ts).map PlyVertex.f_dc = dcs ∧
    (buildVerts xs ns dcs frs os scs qs ts).map PlyVertex.f_rest =
        frs.map flattenRest ∧
    (buildVerts xs ns dcs frs os scs qs ts).map PlyVertex.opacity = os ∧
    (buildVerts xs ns dcs frs os scs qs ts).map PlyVertex.scale = scs ∧
    (buildVerts xs ns dcs frs os scs qs ts).map PlyVertex.rot = qs ∧
    (buildVerts xs ns dcs frs os scs qs ts).map PlyVertex.ty = ts := by
  induction xs generalizing ns dcs frs os scs qs ts with
  | nil =>
      have e1 : ns = [] := List.length_eq_zero.mp h1
      have e2 : dcs = [] := List.length_eq_zero.mp h2
      have e3 : frs = [] := List.length_eq_zero.mp h3
      have e4 : os = [] := List.length_eq_zero.mp h4
      have e5 : scs = [] := List.length_eq_zero.mp h5
      have e6 : qs = [] := List.length_eq_zero.mp h6
      have e7 : ts = [] := List.length_eq_zero.mp h7
      subst e1 e2 e3 e4 e5 e6 e7
      simp [buildVerts]
  | cons x xs ih =>
      cases ns with
      | nil => simp at h1
      | cons nv ns =>
      cases dcs with
      | nil => simp at h2
      | cons dc dcs =>
      cases frs with
      | nil => simp at h3
      | cons fr frs =>
      cases os with
      | nil => simp at h4
      | cons o os =>
      cases scs with
      | nil => simp at h5
      | cons sc scs =>
      cases qs with
      | nil => simp at h6
      | cons q qs =>
      cases ts with
      | nil => simp at h7
      | cons t ts =>
      simp only [List.length_cons, Nat.succ.injEq] at h1 h2 h3 h4 h5 h6 h7
      obtain ⟨e1, e2, e3, e4, e5, e6, e7⟩ :=
        ih ns dcs frs os scs qs ts h1 h2 h3 h4 h5 h6 h7
      obtain ⟨a, b, c⟩ := x
      refine ⟨?_, ?_, ?_, ?_, ?_, ?_, ?_⟩ <;>
        simp [buildVerts, e1, e2, e3, e4, e5, e6, e7]

/-- C9: serialization stores raw (pre-activation) scale, opacity and
rotation values, and serializing any population then deserializing it
reproduces the raw per-primitive field values (position, DC and
higher-order color coefficients, opacity, scale, rotation) exactly in the
rational model (i.e. within float32 precision in the implementation), with
no extra decoding step; this holds for every population whose arrays agree
in length and whose coefficient rows match the configured SH degree,
including one of 1000 primitives. -/
theorem c9_save_load_roundtrip (s t : GS) (maxSh : ℕ) (ns : List Vec3)
    (hn : s.normal = some ns)
    (hlen1 : ns.length = s.xyz.value.length)
    (hlen2 : s.f_dc.value.length = s.xyz.value.length)
    (hlen3 : s.f_rest.value.length = s.xyz.value.length)
    (hlen4 : s.opacity.value.length = s.xyz.value.length)
    (hlen5 : s.scaling.value.length = s.xyz.value.length)
    (hlen6 : s.rotation.value.length = s.xyz.value.length)
    (hlen7 : s.type_.length = s.xyz.value.length)
    (hm : ∀ r ∈ s.f_rest.value, r.length = (maxSh + 1) ^ 2 - 1) :
    ∃ vs out, save_ply s = some vs ∧ load_ply maxSh vs t = some out ∧
      out.xyz.value = s.xyz.value ∧
      out.f_dc.value = s.f_dc.value ∧
      out.f_rest.value = s.f_rest.value ∧
      out.opacity.value = s.opacity.value ∧
      out.scaling.value = s.scaling.value ∧
      out.rotation.value = s.rotation.value := by
  have hsave : save_ply s = some (buildVerts s.xyz.value ns s.f_dc.value
      s.f_rest.value s.opacity.value s.scaling.value s.rotation.value s.type_) := by
    simp only [save_ply, hn]
    rfl
  obtain ⟨e1, e2, e3, e4, e5, e6, e7⟩ := buildVerts_fields s.xyz.value ns
    s.f_dc.value s.f_rest.value s.opacity.value s.scaling.value s.rotation.value
    s.type_ hlen1 hlen2 hlen3 hlen4 hlen5 hlen6 hlen7
  have hone : 1 ≤ (maxSh + 1) ^ 2 := Nat.one_le_pow _ _ (Nat.succ_pos maxSh)
  set VS := buildVerts s.xyz.value ns s.f_dc.value s.f_rest.value s.opacity.value
    s.scaling.value s.rotation.value s.type_ with hVS
  have hall : VS.all (fun v => v.f_rest.length == 3 * (maxSh + 1) ^ 2 - 3) = true := by
    rw [List.all_eq_true]
    intro v hv
    have hmem : v.f_rest ∈ VS.map PlyVertex.f_rest := List.mem_map_of_mem _ hv
    rw [e3] at hmem
    rcases List.mem_map.mp hmem with ⟨r, hr, hflat⟩
    have hrl := hm r hr
    rw [beq_iff_eq, ← hflat, flattenRest]
    simp only [List.length_append, List.length_map]
    rw [hrl]
    omega
  refine ⟨VS,
    { t with
      xyz := ⟨VS.map fun v => (v.x, v.y, v.z), none⟩
      f_dc := ⟨VS.map PlyVertex.f_dc, none⟩
      f_rest := ⟨VS.map fun v => unflattenRest ((maxSh + 1) ^ 2 - 1) v.f_rest, none⟩
      opacity := ⟨VS.map PlyVertex.opacity, none⟩
      scaling := ⟨VS.map PlyVertex.scale, none⟩
      rotation := ⟨VS.map PlyVertex.rot, none⟩ },
    hsave, ?_, ?_, ?_, ?_, ?_, ?_, ?_⟩
  · simp only [load_ply]
    rw [if_pos hall]
  · exact e1
  · exact e2
  · show VS.map (fun v => unflattenRest ((maxSh + 1) ^ 2 - 1) v.f_rest) =
      s.f_rest.value
    have hcomp : VS.map (fun v => unflattenRest ((maxSh + 1) ^ 2 - 1) v.f_rest) =
        (VS.map PlyVertex.f_rest).map (unflattenRest ((maxSh + 1) ^ 2 - 1)) := by
      rw [List.map_map]
      rfl
    have hpt : ∀ r ∈ s.f_rest.value,
        (unflattenRest ((maxSh + 1) ^ 2 - 1) ∘ flattenRest) r = id r := by
      intro r hr
      show unflattenRest ((maxSh + 1) ^ 2 - 1) (flattenRest r) = r
      rw [← hm r hr]
      exact unflatten_flatten r
    rw [hcomp, e3, List.map_map, List.map_congr_left hpt, List.map_id]
  · exact e4
  · exact e5
  · exact e6

/-- Witness for C9 at a concrete 1000-primitive store. -/
theorem c9_save_load_roundtrip_witness :
    s9.normal = some (List.replicate 1000 ((0 : ℚ), (0 : ℚ), (1 : ℚ))) ∧
    (∀ r ∈ s9.f_rest.value, r.length = (1 + 1) ^ 2 - 1) ∧
    (∃ vs out, save_ply s9 = some vs ∧ load_ply 1 vs gsBase = some out ∧
      out.xyz.value = s9.xyz.value ∧
      out.f_dc.value = s9.f_dc.value ∧
      out.f_rest.value = s9.f_rest.value ∧
      out.opacity.value = s9.opacity.value ∧
      out.scaling.value = s9.scaling.value ∧
      out.rotation.value = s9.rotation.value) :=
  ⟨rfl,
   fun r hr => by
     rw [List.eq_of_mem_replicate hr]
     rfl,
   c9_save_load_roundtrip s9 gsBase 1 (List.replicate 1000 (0, 0, 1)) rfl
     (by
       show (List.replicate 1000 ((0 : ℚ), (0 : ℚ), (1 : ℚ))).length =
         (List.replicate 1000 ((1 : ℚ), (2 : ℚ), (3 : ℚ))).length
       rw [List.length_replicate, List.length_replicate])
     (by
       show (List.replicate 1000 ((1 : ℚ), (0 : ℚ), (0 : ℚ))).length =
         (List.replicate 1000 ((1 : ℚ), (2 : ℚ), (3 : ℚ))).length
       rw [List.length_replicate, List.length_replicate])
     (by
       show (List.replicate 1000 (List.replicate 3 ((1 : ℚ), (2 : ℚ), (3 : ℚ)))).length =
         (List.replicate 1000 ((1 : ℚ), (2 : ℚ), (3 : ℚ))).length
       rw [List.length_replicate, List.length_replicate])
     (by
       show (List.replicate 1000 (1 : ℚ)).length =
         (List.replicate 1000 ((1 : ℚ), (2 : ℚ), (3 : ℚ))).length
       rw [List.length_replicate, List.length_replicate])
     (by
       show (List.replicate 1000 ((1 : ℚ), (1 : ℚ), (1 : ℚ))).length =
         (List.replicate 1000 ((1 : ℚ), (2 : ℚ), (3 : ℚ))).length
       rw [List.length_replicate, List.length_replicate])
     (by
       show (List.replicate 1000 ((1 : ℚ), (0 : ℚ), (0 : ℚ), (0 : ℚ))).length =
         (List.replicate 1000 ((1 : ℚ), (2 : ℚ), (3 : ℚ))).length
       rw [List.length_replicate, List.length_replicate])
     (by
       show (List.replicate 1000 (1 : ℚ)).length =
         (List.replicate 1000 ((1 : ℚ), (2 : ℚ), (3 : ℚ))).length
       rw [List.length_replicate, List.length_replicate])
     (fun r hr => by
       rw [List.eq_of_mem_replicate hr]
       rfl)⟩

/-! Claim C10. -/

/-- C10: computeNormal returns None unconditionally, so after
create_from_pcd (and before any densify_and_prune call) the stored normal
is None and save_ply fails (raises on torch.from_numpy(None)) instead of
producing a record list; after any densify_and_prune call the normal slot
is populated by the open3d estimate and save_ply succeeds. -/
theorem c10_save_requires_normals (sact sinv oact : ℚ → ℚ) (p : PcdIn) (maxSh : ℕ) :
    computeNormal = (none : Option (List Vec3)) ∧
    (create_from_pcd sact sinv oact p maxSh).normal = none ∧
    save_ply (create_from_pcd sact sinv oact p maxSh) = none ∧
    ∀ (orc : Oracle) (mg : Flt) (mo extent : ℚ) (mss : Option ℚ) (s : GS),
      ∃ vs, save_ply (densify_and_prune orc mg mo extent mss s) = some vs := by
  refine ⟨rfl, rfl, rfl, ?_⟩
  intro orc mg mo extent mss s
  exact ⟨_, rfl⟩

end GRAPE
